import Mathlib

/-!
Verification of the TurboFCL enterprise FOCI assessment engine
(`backend/app/services/enterprise_foci_service.py`).

The development shallowly embeds the service: ownership relations, the
recursive ownership-graph traversal with its cycle / depth guards, the
indicator evaluators, the mitigation recommender, the weighted risk scorer,
and the orchestrator's recency-cache check.  Python `Decimal` percentages are
modelled as `ℚ`, dates/datetimes as `Int` (days), database rows as lists.
The recursion of `traverse_ownership` is embedded with an explicit fuel
parameter (`traverseF`); fuel 6 is provably sufficient because the source
recurses only while `depth < 5`, and exhaustion is represented by a separate,
provably unreachable error value.
-/

/-- Modelled from the spec: indicator category enum (`FOCIIndicatorType` of the
`app.types.enterprise` module, which is not part of the sources); §3 lists the
categories ownership / control / influence / technology-transfer /
export-control / international-agreement. -/
inductive FOCIIndicatorType where
  | FOREIGN_OWNERSHIP
  | FOREIGN_CONTROL
  | FOREIGN_INFLUENCE
  | TECHNOLOGY_TRANSFER
  | EXPORT_CONTROL
  | INTERNATIONAL_AGREEMENT
deriving DecidableEq, Repr

/-- Modelled from the spec: severity enum (`FOCISeverity`), §3:
minor / moderate / major / critical. -/
inductive FOCISeverity where
  | MINOR
  | MODERATE
  | MAJOR
  | CRITICAL
deriving DecidableEq, Repr

/-- Modelled from the spec: risk level enum (`FOCIRiskLevel`), §3:
none / low / medium / high / critical. -/
inductive FOCIRiskLevel where
  | NONE
  | LOW
  | MEDIUM
  | HIGH
  | CRITICAL
deriving DecidableEq, Repr

/-- Modelled from the spec: mitigation measure type enum (`MitigationType`),
§3: board resolution, proxy agreement, special security agreement,
technology control plan. -/
inductive MitigationType where
  | BOARD_RESOLUTION
  | PROXY_AGREEMENT
  | SPECIAL_SECURITY_AGREEMENT
  | TECHNOLOGY_CONTROL_PLAN
deriving DecidableEq, Repr

/-- Modelled from the spec: confidence level enum (`ConfidenceLevel`), §3:
low / medium / high / very-high. -/
inductive ConfidenceLevel where
  | LOW
  | MEDIUM
  | HIGH
  | VERY_HIGH
deriving DecidableEq, Repr

/-- Modelled from the spec: validation status enum (`ValidationStatus`), §3:
passed / failed. -/
inductive ValidationStatus where
  | PASSED
  | FAILED
deriving DecidableEq, Repr

/-- Modelled from the spec: an industry classification code attached to an
entity (used by the technology-transfer evaluator, which reads `code` and
`description`). -/
structure NaicsCode where
  code : String
  description : String
deriving DecidableEq, Repr

/-- Modelled from the spec: the business entity rows read by the engine
(`app.models.entities.Entity` is not part of the sources). §3: identifier,
soft-delete marker, classification codes. -/
structure Entity where
  id : String
  deleted_at : Option Int
  naics_codes : List NaicsCode
deriving DecidableEq, Repr

/-- Modelled from the spec: an ownership relation row
(`app.models.entities.OwnershipRelation` is not part of the sources); fields
per §3 and per the attribute accesses in the service.  A Python `None` or
empty-string `owner_entity_id` (both falsy wherever the service tests it) is
represented as `none`; likewise `owner_individual_name`.  Dates are `Int`
days. -/
structure OwnershipRelation where
  owned_entity_id : String
  owner_entity_id : Option String
  owner_individual_name : Option String
  owner_type : String
  ownership_percentage : ℚ
  voting_percentage : Option ℚ
  is_foreign : Bool
  is_controlling : Bool
  relationship_type : String
  citizenship : List String
  effective_date : Int
  termination_date : Option Int
deriving DecidableEq, Repr

/-- One element of the `detailed_ownership` list built by
`traverse_ownership` (the `relation_detail` dict). -/
structure OwnershipDetail where
  owner_id : String
  owner_name : String
  owner_type : String
  direct_percentage : ℚ
  effective_percentage : ℚ
  voting_percentage : Option ℚ
  is_foreign : Bool
  is_controlling : Bool
  relationship_type : String
  citizenship : List String
  depth : Nat
deriving DecidableEq, Repr

/-- One element of the `foreign_control_indicators` list built by
`traverse_ownership`. -/
structure ControlCandidate where
  owner : OwnershipDetail
  control_type : String
  control_percentage : ℚ
deriving DecidableEq, Repr

/-- The `ownership_analysis` dict returned by `_analyze_ownership_structure`
(the `analysis_timestamp` string is omitted: no computation reads it). -/
structure OwnershipAnalysis where
  entity_id : String
  total_ownership_relations : Nat
  ownership_tiers : Nat
  total_foreign_ownership_percentage : ℚ
  foreign_control_indicators : List ControlCandidate
  ownership_complexity_score : Nat
  detailed_ownership : List OwnershipDetail
deriving DecidableEq, Repr

/-- A FOCI indicator dict as produced by the `_assess_*_indicators`
evaluators. -/
structure FOCIIndicatorData where
  indicator_type : FOCIIndicatorType
  severity : FOCISeverity
  description : String
  evidence : List String
  mitigation_required : Bool
  nispom_reference : String
deriving DecidableEq, Repr

/-- A mitigation measure dict as produced by
`_assess_mitigation_requirements`. -/
structure MitigationMeasureData where
  measure_type : MitigationType
  description : String
  implementation_timeline : String
  responsible_party : String
  monitoring_requirements : String
  effectiveness_assessment : String
deriving DecidableEq, Repr

/-- The dict returned by `_calculate_enterprise_risk_score`. -/
structure RiskAssessmentResult where
  risk_score : ℤ
  risk_level : FOCIRiskLevel
  base_score : ℤ
  indicator_contribution : ℤ
  mitigation_reduction : ℤ
  mitigation_required : Bool
  clearance_recommendation : String
  confidence_level : ConfidenceLevel
deriving DecidableEq, Repr

/-- The dict returned by `_assess_dcsa_submission_requirements`. -/
structure DCSARequirements where
  submission_required : Bool
  submission_urgency : String
  required_documents : List String
  estimated_review_time : String
  dcsa_contact_required : Bool
deriving DecidableEq, Repr

/-- Modelled from the spec: a persisted `FOCIAssessment` record
(`app.models.entities.FOCIAssessment` is not part of the sources); fields per
§3 and per `_create_assessment_record` / `_check_recent_assessment`.  The
`dccsa_submission_required` spelling is the source's. -/
structure FOCIAssessmentRecord where
  entity_id : String
  assessment_type : String
  risk_level : FOCIRiskLevel
  risk_score : ℤ
  dccsa_submission_required : Bool
  assessment_date : Int
  assessor_id : String
  methodology : String
  confidence_level : ConfidenceLevel
  next_review_date : Int
  validation_status : ValidationStatus
deriving DecidableEq, Repr

/- ### Risk thresholds and indicator weights (`EnterpriseFOCIService.__init__`) -/

def foreign_ownership_minor : ℚ := 5

def foreign_ownership_major : ℚ := 10

def foreign_ownership_critical : ℚ := 25

def voting_control_threshold : ℚ := 10

def board_representation_threshold : ℚ := 25

/-- `self.indicator_weights`: a nested dict covering four of the six indicator
categories; a missing key is `none`. -/
def indicator_weights : FOCIIndicatorType → FOCISeverity → Option ℤ
  | .FOREIGN_OWNERSHIP, .MINOR => some 10
  | .FOREIGN_OWNERSHIP, .MODERATE => some 25
  | .FOREIGN_OWNERSHIP, .MAJOR => some 50
  | .FOREIGN_OWNERSHIP, .CRITICAL => some 100
  | .FOREIGN_CONTROL, .MINOR => some 15
  | .FOREIGN_CONTROL, .MODERATE => some 35
  | .FOREIGN_CONTROL, .MAJOR => some 70
  | .FOREIGN_CONTROL, .CRITICAL => some 100
  | .FOREIGN_INFLUENCE, .MINOR => some 5
  | .FOREIGN_INFLUENCE, .MODERATE => some 15
  | .FOREIGN_INFLUENCE, .MAJOR => some 40
  | .FOREIGN_INFLUENCE, .CRITICAL => some 80
  | .TECHNOLOGY_TRANSFER, .MINOR => some 20
  | .TECHNOLOGY_TRANSFER, .MODERATE => some 40
  | .TECHNOLOGY_TRANSFER, .MAJOR => some 80
  | .TECHNOLOGY_TRANSFER, .CRITICAL => some 100
  | .EXPORT_CONTROL, _ => none
  | .INTERNATIONAL_AGREEMENT, _ => none

/- ### Ownership relation fetch (the SQL query inside `traverse_ownership`) -/

/-- The date filter of the relation query: `effective_date <= today` and
`termination_date` null or `> today`. -/
def isActiveRelation (r : OwnershipRelation) (today : Int) : Bool :=
  r.effective_date ≤ today &&
    (match r.termination_date with
     | none => true
     | some t => today < t)

/-- Insert into a list kept in descending `ownership_percentage` order. -/
def insertByPctDesc (r : OwnershipRelation) :
    List OwnershipRelation → List OwnershipRelation
  | [] => [r]
  | x :: xs =>
    if x.ownership_percentage < r.ownership_percentage then r :: x :: xs
    else x :: insertByPctDesc r xs

/-- Insertion sort by descending `ownership_percentage`, embedding the
query's `ORDER BY ownership_percentage DESC`. -/
def sortByPctDesc (l : List OwnershipRelation) : List OwnershipRelation :=
  l.foldr insertByPctDesc []

/-- The relation query of `traverse_ownership`: all active relations whose
`owned_entity_id` is the current entity, ordered by descending ownership
percentage. -/
def activeRelationsFor (g : List OwnershipRelation) (e : String) (today : Int) :
    List OwnershipRelation :=
  sortByPctDesc (g.filter (fun r => r.owned_entity_id == e && isActiveRelation r today))

/- ### The traversal (`_analyze_ownership_structure.traverse_ownership`) -/

/-- Structural failures raised by the traversal.  `circular` and
`depthExceeded` embed the two `BusinessLogicError` raises; `fuelExhausted` is
an artifact of the fuel embedding of the recursion and is proved unreachable
(`analyzeOwnershipStructure_ne_fuelExhausted`). -/
inductive TraversalError where
  | circular (entityId : String)
  | depthExceeded
  | fuelExhausted
deriving DecidableEq, Repr

/-- The mutable closure state of `_analyze_ownership_structure`:
`visited_entities`, `total_foreign_ownership`,
`foreign_control_indicators`. -/
structure TraversalState where
  visited : List String
  total_foreign : ℚ
  ctrls : List ControlCandidate
deriving DecidableEq, Repr

abbrev TraversalResult := Except TraversalError (List OwnershipDetail × TraversalState)

/-- Python truthiness of the optional `voting_percentage` Decimal:
`None` and `0` are falsy. -/
def votingTruthy : Option ℚ → Bool
  | none => false
  | some q => q != 0

/-- Python `voting_percentage or ownership_percentage`: the voting percentage
when truthy, otherwise the direct ownership percentage. -/
def votingOrOwnership (voting : Option ℚ) (ownership : ℚ) : ℚ :=
  match voting with
  | none => ownership
  | some q => if q = 0 then ownership else q

/-- The `relation_detail` dict built for each relation (depth is the tier of
the owned entity; `eff` is the already-computed effective percentage). -/
def mkOwnershipDetail (r : OwnershipRelation) (depth : Nat) (eff : ℚ) :
    OwnershipDetail where
  owner_id := r.owner_entity_id.getD "INDIVIDUAL"
  owner_name := r.owner_individual_name.getD "Entity Owner"
  owner_type := r.owner_type
  direct_percentage := r.ownership_percentage
  effective_percentage := eff
  voting_percentage := r.voting_percentage
  is_foreign := r.is_foreign
  is_controlling := r.is_controlling
  relationship_type := r.relationship_type
  citizenship := r.citizenship
  depth := depth

/-- The control-indicator candidate check nested under `if relation.is_foreign`:
controlling, or direct percentage at/above the voting-control threshold, or a
truthy voting percentage at/above it. -/
def controlCandidateOf (r : OwnershipRelation) (detail : OwnershipDetail) :
    Option ControlCandidate :=
  if r.is_controlling = true ∨ r.ownership_percentage ≥ voting_control_threshold ∨
      (votingTruthy r.voting_percentage = true ∧
        r.voting_percentage.getD 0 ≥ voting_control_threshold) then
    some { owner := detail
           control_type :=
             if votingTruthy r.voting_percentage = true then "VOTING_CONTROL"
             else "OWNERSHIP_CONTROL"
           control_percentage := votingOrOwnership r.voting_percentage r.ownership_percentage }
  else none

/-- The per-relation state update of the loop body: a foreign relation adds
its effective percentage to the running total and possibly appends a control
candidate; the visited set is untouched. -/
def relationStateUpdate (r : OwnershipRelation) (detail : OwnershipDetail) (eff : ℚ)
    (st : TraversalState) : TraversalState :=
  if r.is_foreign = true then
    { st with
      total_foreign := st.total_foreign + eff
      ctrls := st.ctrls ++ (controlCandidateOf r detail).toList }
  else st

/-- `effective_percentage = (relation.ownership_percentage / 100) *
cumulative_percentage`. -/
def relationEffective (r : OwnershipRelation) (cum : ℚ) : ℚ :=
  r.ownership_percentage / 100 * cum

/-- The whole per-relation state update of the loop body (detail built with
the effective percentage, then the foreign accumulation of
`relationStateUpdate`). -/
def relationUpd (r : OwnershipRelation) (depth : Nat) (cum : ℚ)
    (st : TraversalState) : TraversalState :=
  relationStateUpdate r (mkOwnershipDetail r depth (relationEffective r cum))
    (relationEffective r cum) st

/-- The `for relation in relations` loop of `traverse_ownership`, with the
recursive call abstracted as `recurse` (invoked only for an entity-typed owner
while `depth < 5`; otherwise the relation is still recorded but not
expanded). -/
def traverseRelations (recurse : String → ℚ → TraversalState → TraversalResult)
    (depth : Nat) (cum : ℚ) :
    List OwnershipRelation → TraversalState → TraversalResult
  | [], st => .ok ([], st)
  | r :: rs, st =>
    let st1 := relationUpd r depth cum st
    let subResult : TraversalResult :=
      match r.owner_entity_id with
      | some o => if depth < 5 then recurse o (relationEffective r cum) st1 else .ok ([], st1)
      | none => .ok ([], st1)
    match subResult with
    | .error err => .error err
    | .ok (sub, st2) =>
      match traverseRelations recurse depth cum rs st2 with
      | .error err => .error err
      | .ok (rest, st3) =>
        .ok (mkOwnershipDetail r depth (relationEffective r cum) :: (sub ++ rest), st3)

/-- `traverse_ownership(current_entity_id, depth, cumulative_percentage)`.
The first argument is recursion fuel (an embedding artifact; 6 suffices from
the root because recursion proceeds only while `depth < 5`).  The guards are
the source's: `depth > 10` raises the depth error, a visited entity raises the
circular error, and the entity is marked visited before its relations are
walked. -/
def traverseF (g : List OwnershipRelation) (today : Int) :
    Nat → String → Nat → ℚ → TraversalState → TraversalResult
  | 0, _, _, _, _ => .error .fuelExhausted
  | fuel + 1, e, depth, cum, st =>
    if depth > 10 then .error .depthExceeded
    else if e ∈ st.visited then .error (.circular e)
    else
      traverseRelations (fun o c st' => traverseF g today fuel o (depth + 1) c st')
        depth cum (activeRelationsFor g e today)
        { st with visited := e :: st.visited }

/-- `max([rel["depth"] for rel in ownership_relations] + [0])`. -/
def maxDepthOf (details : List OwnershipDetail) : Nat :=
  (details.map (fun d => d.depth)).foldr max 0

/-- `_calculate_ownership_complexity`. -/
def calculate_ownership_complexity (details : List OwnershipDetail) : Nat :=
  min
    (2 * details.length +
      5 * (details.filter (fun d => d.is_foreign)).length +
      3 * (details.filter (fun d => d.is_controlling)).length +
      10 * maxDepthOf details +
      2 * ((details.map (fun d => d.owner_type)).dedup).length)
    100

/-- `_analyze_ownership_structure`: run the traversal from the root with
cumulative percentage 100 and assemble the analysis dict; the total foreign
ownership is capped at 100. -/
def analyzeOwnershipStructure (g : List OwnershipRelation) (today : Int)
    (rootId : String) : Except TraversalError OwnershipAnalysis :=
  match traverseF g today 6 rootId 0 100 ⟨[], 0, []⟩ with
  | .error err => .error err
  | .ok (details, st) =>
    .ok { entity_id := rootId
          total_ownership_relations := details.length
          ownership_tiers := maxDepthOf details + 1
          total_foreign_ownership_percentage := min st.total_foreign 100
          foreign_control_indicators := st.ctrls
          ownership_complexity_score := calculate_ownership_complexity details
          detailed_ownership := details }

/- ### Indicator evaluators (`_evaluate_comprehensive_foci_indicators`) -/

/-- The aggregate-percentage band of `_assess_foreign_ownership_indicators`:
strict `>` comparisons against the critical / major / minor thresholds. -/
def ownershipBandIndicators (pct : ℚ) : List FOCIIndicatorData :=
  (if pct > foreign_ownership_critical then
    [{ indicator_type := .FOREIGN_OWNERSHIP
       severity := .CRITICAL
       description := "Foreign ownership of " ++ toString pct ++ "% exceeds critical threshold"
       evidence := ["Total foreign ownership: " ++ toString pct ++ "%"]
       mitigation_required := true
       nispom_reference := "NISPOM 2-202a" }]
  else if pct > foreign_ownership_major then
    [{ indicator_type := .FOREIGN_OWNERSHIP
       severity := .MAJOR
       description := "Foreign ownership of " ++ toString pct ++ "% requires mitigation"
       evidence := ["Total foreign ownership: " ++ toString pct ++ "%"]
       mitigation_required := true
       nispom_reference := "NISPOM 2-202b" }]
  else if pct > foreign_ownership_minor then
    [{ indicator_type := .FOREIGN_OWNERSHIP
       severity := .MODERATE
       description := "Foreign ownership of " ++ toString pct ++ "% requires monitoring"
       evidence := ["Total foreign ownership: " ++ toString pct ++ "%"]
       mitigation_required := false
       nispom_reference := "NISPOM 2-202c" }]
  else [])

/-- The concentrated-ownership loop of `_assess_foreign_ownership_indicators`:
one moderate indicator per foreign relation detail with direct percentage of
at least 10%, mitigation-required from 25%. -/
def concentratedOwnershipIndicators (details : List OwnershipDetail) :
    List FOCIIndicatorData :=
  (details.filter (fun d => d.is_foreign)).filterMap
    (fun rel =>
      if rel.direct_percentage ≥ (10 : ℚ) then
        some { indicator_type := .FOREIGN_OWNERSHIP
               severity := .MODERATE
               description := "Concentrated foreign ownership by " ++ rel.owner_name
               evidence := ["Single foreign owner with " ++ toString rel.direct_percentage ++ "% ownership"]
               mitigation_required := rel.direct_percentage ≥ (25 : ℚ)
               nispom_reference := "NISPOM 2-203" }
      else none)

/-- `_assess_foreign_ownership_indicators`: the aggregate-percentage band
followed by the per-relation concentrated-ownership indicators, in source
order. -/
def assess_foreign_ownership_indicators (analysis : OwnershipAnalysis) :
    List FOCIIndicatorData :=
  ownershipBandIndicators analysis.total_foreign_ownership_percentage ++
    concentratedOwnershipIndicators analysis.detailed_ownership

/-- `_assess_foreign_control_indicators`: one indicator per control candidate,
severity graded by control percentage. -/
def assess_foreign_control_indicators (analysis : OwnershipAnalysis) :
    List FOCIIndicatorData :=
  analysis.foreign_control_indicators.map (fun ci =>
    { indicator_type := .FOREIGN_CONTROL
      severity :=
        if ci.control_percentage ≥ (50 : ℚ) then FOCISeverity.CRITICAL
        else if ci.control_percentage ≥ (25 : ℚ) then FOCISeverity.MAJOR
        else FOCISeverity.MODERATE
      description := "Foreign " ++ ci.control_type ++ " by " ++ ci.owner.owner_name
      evidence :=
        ["Foreign entity has " ++ toString ci.control_percentage ++ "% " ++ ci.control_type,
         "Owner type: " ++ ci.owner.owner_type,
         "Citizenship: " ++ String.intercalate ", " ci.owner.citizenship]
      mitigation_required := true
      nispom_reference := "NISPOM 2-204" })

/-- `_assess_foreign_influence_indicators`: three or more foreign relations
suggest coordinated influence; any foreign government owner is critical. -/
def assess_foreign_influence_indicators (entity : Entity)
    (analysis : OwnershipAnalysis) : List FOCIIndicatorData :=
  let foreign_relations := analysis.detailed_ownership.filter (fun d => d.is_foreign)
  (if foreign_relations.length ≥ 3 then
    [{ indicator_type := .FOREIGN_INFLUENCE
       severity := .MODERATE
       description := "Multiple foreign ownership relationships may indicate coordinated influence"
       evidence := ["Number of foreign ownership relationships: " ++ toString foreign_relations.length]
       mitigation_required := false
       nispom_reference := "NISPOM 2-205" }]
  else []) ++
  (if (foreign_relations.filter (fun d => d.owner_type == "GOVERNMENT")).length ≠ 0 then
    [{ indicator_type := .FOREIGN_INFLUENCE
       severity := .CRITICAL
       description := "Foreign government ownership detected"
       evidence := ["Foreign government entity in ownership structure"]
       mitigation_required := true
       nispom_reference := "NISPOM 2-206" }]
  else [])

/-- The high-technology NAICS code list of
`_assess_technology_transfer_indicators`. -/
def high_tech_naics : List String := ["334", "335", "336", "541", "541511", "541512"]

/-- `_assess_technology_transfer_indicators`: one minor indicator per NAICS
code matching a high-technology code's initial digits. -/
def assess_technology_transfer_indicators (entity : Entity) :
    List FOCIIndicatorData :=
  entity.naics_codes.filterMap (fun naics =>
    if high_tech_naics.any (fun tech => naics.code.startsWith tech) then
      some { indicator_type := .TECHNOLOGY_TRANSFER
             severity := .MINOR
             description := "High-technology industry classification requires technology transfer review"
             evidence := ["NAICS Code: " ++ naics.code ++ " - " ++ naics.description]
             mitigation_required := false
             nispom_reference := "NISPOM 2-207" }
    else none)

/-- `_assess_export_control_indicators`: a stub returning no indicators. -/
def assess_export_control_indicators (entity : Entity) : List FOCIIndicatorData := []

/-- `_assess_international_agreement_indicators`: a stub returning no
indicators. -/
def assess_international_agreement_indicators (entity : Entity) :
    List FOCIIndicatorData := []

/-- `_evaluate_comprehensive_foci_indicators`: concatenation of the six
category evaluators, in source order. -/
def evaluate_comprehensive_foci_indicators (entity : Entity)
    (analysis : OwnershipAnalysis) : List FOCIIndicatorData :=
  assess_foreign_ownership_indicators analysis ++
  assess_foreign_control_indicators analysis ++
  assess_foreign_influence_indicators entity analysis ++
  assess_technology_transfer_indicators entity ++
  assess_export_control_indicators entity ++
  assess_international_agreement_indicators entity

/- ### Mitigation recommender (`_assess_mitigation_requirements`) -/

def ssaMeasure : MitigationMeasureData where
  measure_type := .SPECIAL_SECURITY_AGREEMENT
  description := "Special Security Agreement required due to significant FOCI conditions"
  implementation_timeline := "Within 90 days of clearance approval"
  responsible_party := "Facility Security Officer"
  monitoring_requirements := "Annual compliance review by DCSA"
  effectiveness_assessment := "High - addresses most FOCI concerns"

def proxyMeasure : MitigationMeasureData where
  measure_type := .PROXY_AGREEMENT
  description := "Proxy Agreement to mitigate foreign control concerns"
  implementation_timeline := "Prior to clearance approval"
  responsible_party := "Board of Directors"
  monitoring_requirements := "Semi-annual compliance certification"
  effectiveness_assessment := "Medium - addresses control concerns"

def boardResolutionMeasure : MitigationMeasureData where
  measure_type := .BOARD_RESOLUTION
  description := "Board Resolution excluding foreign interests from classified activities"
  implementation_timeline := "Within 30 days of clearance approval"
  responsible_party := "Board of Directors"
  monitoring_requirements := "Annual board certification"
  effectiveness_assessment := "Medium - suitable for ownership without control"

def tcpMeasure : MitigationMeasureData where
  measure_type := .TECHNOLOGY_CONTROL_PLAN
  description := "Technology Control Plan to prevent unauthorized technology transfer"
  implementation_timeline := "Prior to classified contract award"
  responsible_party := "Chief Technology Officer / FSO"
  monitoring_requirements := "Quarterly technology transfer reviews"
  effectiveness_assessment := "High - specific to technology concerns"

/-- `_assess_mitigation_requirements`: the primary measure chosen once per
assessment (SSA, else proxy agreement / board resolution), plus a technology
control plan whenever a technology-transfer indicator exists. -/
def assess_mitigation_requirements (entity : Entity) (analysis : OwnershipAnalysis)
    (foci_indicators : List FOCIIndicatorData) : List MitigationMeasureData :=
  let critical_indicators := foci_indicators.filter (fun i => i.severity == .CRITICAL)
  let major_indicators := foci_indicators.filter (fun i => i.severity == .MAJOR)
  let pct := analysis.total_foreign_ownership_percentage
  (if critical_indicators.length ≠ 0 ∨ pct ≥ 25 then [ssaMeasure]
   else if major_indicators.length ≠ 0 ∨ pct ≥ 10 then
     (if analysis.foreign_control_indicators.length ≠ 0 then [proxyMeasure]
      else [boardResolutionMeasure])
   else []) ++
  (if (foci_indicators.filter (fun i => i.indicator_type == .TECHNOLOGY_TRANSFER)).length ≠ 0 then
    [tcpMeasure]
  else [])

/- ### Risk scorer (`_calculate_enterprise_risk_score`) -/

/-- The per-measure-type reduction of the mitigation loop (all four measure
types are covered by the `if`/`elif` chain). -/
def mitigation_reduction_of : MitigationType → ℤ
  | .SPECIAL_SECURITY_AGREEMENT => 30
  | .PROXY_AGREEMENT => 20
  | .BOARD_RESOLUTION => 15
  | .TECHNOLOGY_CONTROL_PLAN => 10

/-- The foreign-ownership-percentage contribution to the base score. -/
def ownershipScoreOf (pct : ℚ) : ℤ :=
  if pct ≥ 25 then 50 else if pct ≥ 10 then 30 else if pct ≥ 5 then 15 else 0

/-- The indicator weight sum (an unknown category/severity pair contributes
zero via the `in`-guarded lookup). -/
def indicatorScoreOf (foci_indicators : List FOCIIndicatorData) : ℤ :=
  (foci_indicators.map (fun i =>
    (indicator_weights i.indicator_type i.severity).getD 0)).sum

/-- `_get_clearance_recommendation`. -/
def get_clearance_recommendation (risk_level : FOCIRiskLevel) (risk_score : ℤ) :
    String :=
  match risk_level with
  | .CRITICAL => "DENY - Critical FOCI conditions present"
  | .HIGH => "CONDITIONAL APPROVAL - Comprehensive mitigation required"
  | .MEDIUM => "APPROVE WITH MITIGATION - Standard mitigation measures required"
  | .LOW => "APPROVE WITH MONITORING - Enhanced monitoring recommended"
  | .NONE => "APPROVE - No significant FOCI concerns identified"

/-- `_assess_confidence_level`.  Python's `len(weak) > len(indicators) / 2`
compares an int against a float; for integers it is equivalent to
`2 * len(weak) > len(indicators)`. -/
def assess_confidence_level (analysis : OwnershipAnalysis)
    (foci_indicators : List FOCIIndicatorData) : ConfidenceLevel :=
  let c0 : ℤ := 100
  let c1 := if analysis.ownership_tiers > 3 then c0 - 10 else c0
  let weak := foci_indicators.filter (fun i => i.evidence.length < 2)
  let c2 := if 2 * weak.length > foci_indicators.length then c1 - 20 else c1
  if c2 ≥ 90 then .VERY_HIGH
  else if c2 ≥ 75 then .HIGH
  else if c2 ≥ 60 then .MEDIUM
  else .LOW

/-- `_calculate_enterprise_risk_score`: ownership band score, plus complexity
contribution capped at 25, plus indicator weight sum capped at 50, minus the
uncapped mitigation reduction, floored at 0 — with no upper clamp. -/
def calculate_enterprise_risk_score (analysis : OwnershipAnalysis)
    (foci_indicators : List FOCIIndicatorData)
    (mitigation_measures : List MitigationMeasureData) : RiskAssessmentResult :=
  let pct := analysis.total_foreign_ownership_percentage
  let base0 : ℤ := ownershipScoreOf pct
  let base1 : ℤ := base0 + (min (analysis.ownership_complexity_score / 4) 25 : ℕ)
  let indicator_score : ℤ := indicatorScoreOf foci_indicators
  let base2 : ℤ := base1 + min indicator_score 50
  let mitigation_reduction : ℤ :=
    (mitigation_measures.map (fun m => mitigation_reduction_of m.measure_type)).sum
  let final_score : ℤ := max (base2 - mitigation_reduction) 0
  let risk_level : FOCIRiskLevel :=
    if final_score ≥ 80 then .CRITICAL
    else if final_score ≥ 60 then .HIGH
    else if final_score ≥ 30 then .MEDIUM
    else if final_score ≥ 10 then .LOW
    else .NONE
  { risk_score := final_score
    risk_level := risk_level
    base_score := base2
    indicator_contribution := indicator_score
    mitigation_reduction := mitigation_reduction
    mitigation_required := final_score ≥ 30
    clearance_recommendation := get_clearance_recommendation risk_level final_score
    confidence_level := assess_confidence_level analysis foci_indicators }

/- ### DCSA submission requirements (`_assess_dcsa_submission_requirements`) -/

/-- `_estimate_dcsa_review_time`. -/
def estimate_dcsa_review_time (urgency : String) : String :=
  if urgency = "STANDARD" then "60-90 business days"
  else if urgency = "PRIORITY" then "30-45 business days"
  else if urgency = "EXPEDITED" then "15-30 business days"
  else "60-90 business days"

/-- `_assess_dcsa_submission_requirements`. -/
def assess_dcsa_submission_requirements (risk_assessment : RiskAssessmentResult)
    (foci_indicators : List FOCIIndicatorData) : DCSARequirements :=
  let lv := risk_assessment.risk_level
  let fromLevel : Bool × String × List String :=
    if lv = .HIGH ∨ lv = .CRITICAL then
      (true, "EXPEDITED",
        ["Complete ownership structure diagram",
         "Foreign ownership documentation",
         "Proposed mitigation measures",
         "Board resolutions and corporate documents"])
    else if lv = .MEDIUM then
      (true, "STANDARD",
        ["Ownership structure summary", "FOCI assessment report", "Mitigation plan"])
    else (false, "STANDARD", [])
  let has_critical :=
    (foci_indicators.filter (fun i => i.severity == .CRITICAL)).length ≠ 0
  let submission_required := fromLevel.1 ∨ has_critical
  let urgency :=
    if has_critical ∧ fromLevel.2.1 ≠ "EXPEDITED" then "PRIORITY" else fromLevel.2.1
  { submission_required := submission_required
    submission_urgency := urgency
    required_documents := fromLevel.2.2
    estimated_review_time := estimate_dcsa_review_time urgency
    dcsa_contact_required := lv = .HIGH ∨ lv = .CRITICAL }

/- ### Orchestrator (`conduct_comprehensive_assessment` and helpers) -/

/-- Typed failures of a full assessment run (the source wraps every failure
into a `BusinessLogicError`; the payload keeps the cause). -/
inductive AssessmentFailure where
  | entityNotFound (entityId : String)
  | multipleRecentAssessments
  | structural (err : TraversalError)
deriving DecidableEq, Repr

/-- The recency windows of `_check_recent_assessment`, in days, with the 90-day
default for unknown types. -/
def recent_threshold_days (assessment_type : String) : Int :=
  if assessment_type = "INITIAL" then 90
  else if assessment_type = "ANNUAL" then 330
  else if assessment_type = "TRIGGERED" then 30
  else if assessment_type = "CHANGE_IN_OWNERSHIP" then 60
  else 90

/-- Insertion sort of assessments by descending `assessment_date`, embedding
the query's `ORDER BY assessment_date DESC`. -/
def insertByDateDesc (a : FOCIAssessmentRecord) :
    List FOCIAssessmentRecord → List FOCIAssessmentRecord
  | [] => [a]
  | x :: xs =>
    if x.assessment_date < a.assessment_date then a :: x :: xs
    else x :: insertByDateDesc a xs

def sortByDateDesc (l : List FOCIAssessmentRecord) : List FOCIAssessmentRecord :=
  l.foldr insertByDateDesc []

/-- `_check_recent_assessment`: the stored assessments of the same entity and
type, validation-passed, dated within the recency window; `scalar_one_or_none`
yields `none` for no row, the row if unique, and raises on several rows. -/
def check_recent_assessment (store : List FOCIAssessmentRecord) (today : Int)
    (entity_id assessment_type : String) :
    Except AssessmentFailure (Option FOCIAssessmentRecord) :=
  let cutoff := today - recent_threshold_days assessment_type
  match sortByDateDesc (store.filter (fun a =>
      a.entity_id == entity_id && a.assessment_type == assessment_type &&
      cutoff ≤ a.assessment_date && a.validation_status == .PASSED)) with
  | [] => .ok none
  | [a] => .ok (some a)
  | _ => .error .multipleRecentAssessments

/-- `_validate_assessment_authority`: the entity must exist and not be
soft-deleted (the assessor authority check is an unimplemented TODO in the
source). -/
def validate_assessment_authority (entities : List Entity) (entity_id : String) :
    Except AssessmentFailure Entity :=
  match entities.find? (fun e => e.id == entity_id && e.deleted_at == none) with
  | some entity => .ok entity
  | none => .error (.entityNotFound entity_id)

/-- The review intervals of `_calculate_next_review_date`, in days, with the
365-day default. -/
def review_interval_days (assessment_type : String) : Int :=
  if assessment_type = "INITIAL" then 365
  else if assessment_type = "ANNUAL" then 365
  else if assessment_type = "TRIGGERED" then 180
  else if assessment_type = "CHANGE_IN_OWNERSHIP" then 90
  else 365

/-- `_create_assessment_record` (the persisted parent record; indicator and
measure rows are carried alongside by the orchestrator result). -/
def create_assessment_record (entity_id assessor_id assessment_type : String)
    (risk_assessment : RiskAssessmentResult) (dcsa_requirements : DCSARequirements)
    (today : Int) : FOCIAssessmentRecord :=
  { entity_id := entity_id
    assessment_type := assessment_type
    risk_level := risk_assessment.risk_level
    risk_score := risk_assessment.risk_score
    dccsa_submission_required := dcsa_requirements.submission_required
    assessment_date := today
    assessor_id := assessor_id
    methodology := "Enterprise FOCI Assessment v2.0"
    confidence_level := risk_assessment.confidence_level
    next_review_date := today + review_interval_days assessment_type
    validation_status := .PASSED }

/-- The outcome of `conduct_comprehensive_assessment`: either the cached
recent record returned by the short-circuit, or a freshly computed record
persisted together with its indicator and mitigation rows. -/
inductive ConductOutcome where
  | cachedResult (record : FOCIAssessmentRecord)
  | freshResult (record : FOCIAssessmentRecord)
      (indicators : List FOCIIndicatorData)
      (measures : List MitigationMeasureData)
deriving DecidableEq, Repr

/-- The cache-miss pipeline of `conduct_comprehensive_assessment`: traversal,
indicator evaluation, mitigation assessment, risk scoring, DCSA requirements,
record creation. -/
def assessment_pipeline (g : List OwnershipRelation) (today : Int) (entity : Entity)
    (assessor_id assessment_type : String) :
    Except AssessmentFailure ConductOutcome :=
  match analyzeOwnershipStructure g today entity.id with
  | .error err => .error (.structural err)
  | .ok analysis =>
    let foci_indicators := evaluate_comprehensive_foci_indicators entity analysis
    let mitigation := assess_mitigation_requirements entity analysis foci_indicators
    let risk := calculate_enterprise_risk_score analysis foci_indicators mitigation
    let dcsa := assess_dcsa_submission_requirements risk foci_indicators
    .ok (.freshResult
      (create_assessment_record entity.id assessor_id assessment_type risk dcsa today)
      foci_indicators mitigation)

/-- `conduct_comprehensive_assessment`: validate the entity, short-circuit to
a recent passed assessment of the same type unless `force_refresh`, otherwise
run the full pipeline. -/
def conduct_comprehensive_assessment (entities : List Entity)
    (g : List OwnershipRelation) (store : List FOCIAssessmentRecord) (today : Int)
    (entity_id assessor_id assessment_type : String) (force_refresh : Bool) :
    Except AssessmentFailure ConductOutcome :=
  match validate_assessment_authority entities entity_id with
  | .error err => .error err
  | .ok entity =>
    if force_refresh = false then
      match check_recent_assessment store today entity_id assessment_type with
      | .error err => .error err
      | .ok (some recent) => .ok (.cachedResult recent)
      | .ok none => assessment_pipeline g today entity assessor_id assessment_type
    else assessment_pipeline g today entity assessor_id assessment_type

/- ### Spec-side definitions (used to state refinement claims) -/

/-- Following the spec §4.4: `clamp(x, lo, hi)`. -/
def spec_clamp (x lo hi : ℤ) : ℤ := max lo (min x hi)

/-- Following the spec §4.4: `ownershipScore`: 50 if foreign % ≥ 25; 30 if
≥ 10; 15 if ≥ 5; else 0. -/
def spec_ownership_score (pct : ℚ) : ℤ :=
  if pct ≥ 25 then 50 else if pct ≥ 10 then 30 else if pct ≥ 5 then 15 else 0

/-- Following the spec §4.4: `complexityContribution = min(complexityScore / 4, 25)`
(integer division). -/
def spec_complexity_contribution (complexity : ℕ) : ℤ :=
  ((min (complexity / 4) 25 : ℕ) : ℤ)

/-- Following the spec §4.4: `baseScore = ownershipScore + complexityContribution`. -/
def spec_base_score (analysis : OwnershipAnalysis) : ℤ :=
  spec_ownership_score analysis.total_foreign_ownership_percentage +
    spec_complexity_contribution analysis.ownership_complexity_score

/-- Following the spec §4.4: `indicatorScore = Σ weight[category][severity]`,
an unknown pair contributing zero per §7. -/
def spec_indicator_score (foci_indicators : List FOCIIndicatorData) : ℤ :=
  (foci_indicators.map (fun i =>
    (indicator_weights i.indicator_type i.severity).getD 0)).sum

/-- Following the spec §4.4: `mitigationReduction = Σ fixed per-measure-type
reduction`, uncapped. -/
def spec_mitigation_reduction (measures : List MitigationMeasureData) : ℤ :=
  (measures.map (fun m => mitigation_reduction_of m.measure_type)).sum

/-- The spec's §4.4 sum `baseScore + indicatorScore − mitigationReduction`
(indicator contribution capped at 50), before any clamping. -/
def spec_score_sum (analysis : OwnershipAnalysis)
    (foci_indicators : List FOCIIndicatorData)
    (measures : List MitigationMeasureData) : ℤ :=
  spec_base_score analysis + min (spec_indicator_score foci_indicators) 50 -
    spec_mitigation_reduction measures

/-- Following the spec §4.4:
`finalScore = clamp(baseScore + indicatorScore − mitigationReduction, 0, 100)`. -/
def spec_final_score (analysis : OwnershipAnalysis)
    (foci_indicators : List FOCIIndicatorData)
    (measures : List MitigationMeasureData) : ℤ :=
  spec_clamp (spec_score_sum analysis foci_indicators measures) 0 100

/-- The unsorted active relations of an owned entity (the sum of the spec's
§8 foreign-ownership property does not depend on the query order). -/
def specRelationsOf (g : List OwnershipRelation) (today : Int) (e : String) :
    List OwnershipRelation :=
  g.filter (fun r => r.owned_entity_id == e && isActiveRelation r today)

/-- One relation's contribution to the spec's §8 foreign-ownership sum:
`directPercentage/100 × cumulativePercentage` if the relation is foreign, plus
the sub-sum below an entity-typed owner while the expansion depth allows
(`S` is the sub-sum function). -/
def relationContribution (S : String → ℚ → ℚ) (depth : Nat) (cum : ℚ)
    (r : OwnershipRelation) : ℚ :=
  (if r.is_foreign = true then r.ownership_percentage / 100 * cum else 0) +
  (match r.owner_entity_id with
   | some o => if depth < 5 then S o (r.ownership_percentage / 100 * cum) else 0
   | none => 0)

/-- Following the spec §8: the total foreign ownership of an acyclic graph is
the sum over foreign relations of `directPercentage/100 × cumulativePercentage`
at that relation's tier; expansion below an entity stops at the §4.1 fan-out
cap (`depth < 5`), and the fuel argument mirrors `traverseF`'s. -/
def specTotalForeign (g : List OwnershipRelation) (today : Int) :
    Nat → String → ℚ → Nat → ℚ
  | 0, _, _, _ => 0
  | fuel + 1, e, cum, depth =>
    ((specRelationsOf g today e).map
      (relationContribution (fun o c => specTotalForeign g today fuel o c (depth + 1))
        depth cum)).sum

/-- A chain of active ownership relations climbing from `start` through
entity-typed owners: `OwnershipPath g today start p stop` holds when the
relations `p`, in order, lead from `start` up to the owner `stop`. -/
inductive OwnershipPath (g : List OwnershipRelation) (today : Int) :
    String → List OwnershipRelation → String → Prop where
  | nil (e : String) : OwnershipPath g today e [] e
  | cons (e o tgt : String) (r : OwnershipRelation) (p : List OwnershipRelation) :
      r ∈ activeRelationsFor g e today → r.owner_entity_id = some o →
      OwnershipPath g today o p tgt → OwnershipPath g today e (r :: p) tgt

/-- An ownership graph is acyclic when no nonempty chain of active relations
returns to its starting entity. -/
def AcyclicOwnership (g : List OwnershipRelation) (today : Int) : Prop :=
  ∀ e p, OwnershipPath g today e p e → p = []

/- ### Concrete graphs and inputs used by counterexamples and witnesses -/

/-- A relation row with the given ownership shape, active on day 0. -/
def mkRel (owned : String) (owner : Option String) (pct : ℚ) (voting : Option ℚ)
    (foreign controlling : Bool) : OwnershipRelation :=
  { owned_entity_id := owned
    owner_entity_id := owner
    owner_individual_name := none
    owner_type := "CORPORATION"
    ownership_percentage := pct
    voting_percentage := voting
    is_foreign := foreign
    is_controlling := controlling
    relationship_type := "SHAREHOLDER"
    citizenship := []
    effective_date := 0
    termination_date := none }

/-- An ownership analysis with the given aggregate percentage and complexity
and no relation details (the risk scorer reads only these two fields). -/
def mkBareAnalysis (pct : ℚ) (complexity : Nat) : OwnershipAnalysis :=
  { entity_id := "E"
    total_ownership_relations := 0
    ownership_tiers := 1
    total_foreign_ownership_percentage := pct
    foreign_control_indicators := []
    ownership_complexity_score := complexity
    detailed_ownership := [] }

/-- A critical foreign-ownership indicator (weight 100, above the 50-point
indicator cap). -/
def criticalOwnershipIndicator : FOCIIndicatorData :=
  { indicator_type := .FOREIGN_OWNERSHIP
    severity := .CRITICAL
    description := "Foreign ownership exceeds critical threshold"
    evidence := ["Total foreign ownership above threshold"]
    mitigation_required := true
    nispom_reference := "NISPOM 2-202a" }

/-- An export-control indicator: its category is absent from the scorer's
weight table. -/
def exportControlIndicator : FOCIIndicatorData :=
  { indicator_type := .EXPORT_CONTROL
    severity := .MAJOR
    description := "ITAR registration review required"
    evidence := ["Export-controlled technology"]
    mitigation_required := false
    nispom_reference := "NISPOM 2-208" }

/-- A fully-foreign, fully-owning chain link: `owner` owns 100% of `owned`. -/
def chainRel (owned owner : String) : OwnershipRelation :=
  mkRel owned (some owner) 100 none true false

def dmRootB : OwnershipRelation := mkRel "ROOT" (some "B") 40 none true false

def dmRootC : OwnershipRelation := mkRel "ROOT" (some "C") 30 none true false

def dmBD : OwnershipRelation := mkRel "B" (some "D") 50 none true false

def dmCD : OwnershipRelation := mkRel "C" (some "D") 60 none true false

/-- An acyclic diamond: `ROOT` is owned by `B` and `C`, and `D` owns both. -/
def diamondG : List OwnershipRelation := [dmRootB, dmRootC, dmBD, dmCD]

/-- A topological rank witnessing that `diamondG` is acyclic. -/
def diamondRank (s : String) : Nat :=
  if s = "ROOT" then 0 else if s = "B" ∨ s = "C" then 1 else 2

/-- A single chain of 11 tiers: `T10` owns `T9` owns … owns `T0`, every
relation fully foreign-owned. -/
def chain11G : List OwnershipRelation :=
  [chainRel "T0" "T1", chainRel "T1" "T2", chainRel "T2" "T3", chainRel "T3" "T4",
   chainRel "T4" "T5", chainRel "T5" "T6", chainRel "T6" "T7", chainRel "T7" "T8",
   chainRel "T8" "T9", chainRel "T9" "T10"]

/-- The two-entity cycle of the spec's example: `A` owns `B` and `B` owns `A`. -/
def abCycleG : List OwnershipRelation := [chainRel "A" "B", chainRel "B" "A"]

/-- A cycle placed beyond the depth-5 expansion: a chain `T0 … T6` with the
cycle `T6` ↔ `T7` reachable from `T0` in six steps. -/
def deepCycleG : List OwnershipRelation :=
  [chainRel "T0" "T1", chainRel "T1" "T2", chainRel "T2" "T3", chainRel "T3" "T4",
   chainRel "T4" "T5", chainRel "T5" "T6", chainRel "T6" "T7", chainRel "T7" "T6"]

/-- An acyclic graph whose diamond lies beyond the depth-5 expansion:
a chain `T0 … T5`, then `A` and `B` own `T5` and `D` owns both. -/
def ddT5A : OwnershipRelation := mkRel "T5" (some "A") 40 none true false

def ddT5B : OwnershipRelation := mkRel "T5" (some "B") 30 none true false

def ddAD : OwnershipRelation := mkRel "A" (some "D") 50 none true false

def ddBD : OwnershipRelation := mkRel "B" (some "D") 60 none true false

def deepDiamondG : List OwnershipRelation :=
  [chainRel "T0" "T1", chainRel "T1" "T2", chainRel "T2" "T3", chainRel "T3" "T4",
   chainRel "T4" "T5", ddT5A, ddT5B, ddAD, ddBD]

/-- A topological rank witnessing that `deepDiamondG` is acyclic. -/
def deepDiamondRank (s : String) : Nat :=
  if s = "T0" then 0 else if s = "T1" then 1 else if s = "T2" then 2
  else if s = "T3" then 3 else if s = "T4" then 4 else if s = "T5" then 5
  else if s = "A" ∨ s = "B" then 6 else 7

/-- A foreign relation qualifying for control through its direct percentage
(50%) while carrying a smaller nonzero voting percentage (5%). -/
def votingCexRel : OwnershipRelation := mkRel "ROOT" (some "X") 50 (some 5) true false

def votingCexG : List OwnershipRelation := [votingCexRel]

/-- The entity assessed in the cache-hit witness. -/
def witnessEntity : Entity := { id := "E1", deleted_at := none, naics_codes := [] }

/-- A passed annual assessment of `E1`, 10 days old on day 1000. -/
def witnessRecentRecord : FOCIAssessmentRecord :=
  { entity_id := "E1"
    assessment_type := "ANNUAL"
    risk_level := .LOW
    risk_score := 12
    dccsa_submission_required := false
    assessment_date := 990
    assessor_id := "U7"
    methodology := "Enterprise FOCI Assessment v2.0"
    confidence_level := .HIGH
    next_review_date := 1355
    validation_status := .PASSED }

/- ### Basic lemmas about the relation query -/

theorem insertByPctDesc_perm (r : OwnershipRelation) (l : List OwnershipRelation) :
    (insertByPctDesc r l).Perm (r :: l) := by
  induction l with
  | nil => exact List.Perm.refl _
  | cons x xs ih =>
    simp only [insertByPctDesc]
    split
    · exact List.Perm.refl _
    · exact (ih.cons x).trans (List.Perm.swap r x xs)

theorem sortByPctDesc_perm (l : List OwnershipRelation) : (sortByPctDesc l).Perm l := by
  induction l with
  | nil => exact List.Perm.refl _
  | cons x xs ih => exact (insertByPctDesc_perm x (sortByPctDesc xs)).trans (ih.cons x)

theorem mem_sortByPctDesc {r : OwnershipRelation} {l : List OwnershipRelation} :
    r ∈ sortByPctDesc l ↔ r ∈ l :=
  (sortByPctDesc_perm l).mem_iff

theorem sortByPctDesc_nodup {l : List OwnershipRelation} (h : l.Nodup) :
    (sortByPctDesc l).Nodup :=
  ((sortByPctDesc_perm l).nodup_iff).mpr h

theorem activeRelationsFor_eq_sort (g : List OwnershipRelation) (e : String)
    (today : Int) :
    activeRelationsFor g e today = sortByPctDesc (specRelationsOf g today e) := rfl

theorem mem_activeRelationsFor {g : List OwnershipRelation} {e : String}
    {today : Int} {r : OwnershipRelation} :
    r ∈ activeRelationsFor g e today ↔
      r ∈ g ∧ r.owned_entity_id = e ∧ isActiveRelation r today = true := by
  rw [activeRelationsFor_eq_sort, mem_sortByPctDesc, specRelationsOf,
    List.mem_filter]
  simp [and_assoc]

theorem activeRelationsFor_nodup {g : List OwnershipRelation} (e : String)
    (today : Int) (h : g.Nodup) : (activeRelationsFor g e today).Nodup :=
  sortByPctDesc_nodup (h.filter _)

theorem activeRelationsFor_map_sum (g : List OwnershipRelation) (e : String)
    (today : Int) (f : OwnershipRelation → ℚ) :
    ((activeRelationsFor g e today).map f).sum =
      ((specRelationsOf g today e).map f).sum :=
  ((sortByPctDesc_perm (specRelationsOf g today e)).map f).sum_eq

theorem relationStateUpdate_visited (r : OwnershipRelation)
    (detail : OwnershipDetail) (eff : ℚ) (st : TraversalState) :
    (relationStateUpdate r detail eff st).visited = st.visited := by
  unfold relationStateUpdate
  split <;> rfl

/- ### Lemmas about the risk scorer -/

theorem ownershipScoreOf_mono {p q : ℚ} (h : p ≤ q) :
    ownershipScoreOf p ≤ ownershipScoreOf q := by
  unfold ownershipScoreOf
  split_ifs <;> first | omega | linarith

theorem ownershipScoreOf_le (p : ℚ) : ownershipScoreOf p ≤ 50 := by
  unfold ownershipScoreOf
  split_ifs <;> omega

theorem mitigation_reduction_of_nonneg (m : MitigationType) :
    0 ≤ mitigation_reduction_of m := by
  cases m <;> simp [mitigation_reduction_of]

theorem spec_mitigation_reduction_nonneg (measures : List MitigationMeasureData) :
    0 ≤ spec_mitigation_reduction measures := by
  apply List.sum_nonneg
  intro x hx
  obtain ⟨m, _, rfl⟩ := List.mem_map.mp hx
  exact mitigation_reduction_of_nonneg _

theorem risk_score_eq_max (analysis : OwnershipAnalysis)
    (foci_indicators : List FOCIIndicatorData)
    (measures : List MitigationMeasureData) :
    (calculate_enterprise_risk_score analysis foci_indicators measures).risk_score =
      max (ownershipScoreOf analysis.total_foreign_ownership_percentage +
        ((min (analysis.ownership_complexity_score / 4) 25 : ℕ) : ℤ) +
        min (indicatorScoreOf foci_indicators) 50 -
        spec_mitigation_reduction measures) 0 := rfl

/-- **C1** (amended).  For every ownership analysis, indicator list and
mitigation list, the returned risk score equals
`max(baseScore + indicatorScore − mitigationReduction, 0)` — the sum of the
spec's §4.4 components floored at 0 but **not** clamped above — and is
therefore bounded by 125 (50 ownership + 25 complexity + 50 capped indicator
contribution), not by 100. -/
theorem claim_C1_risk_score_floored_not_clamped (analysis : OwnershipAnalysis)
    (foci_indicators : List FOCIIndicatorData)
    (measures : List MitigationMeasureData) :
    (calculate_enterprise_risk_score analysis foci_indicators measures).risk_score =
      max (spec_score_sum analysis foci_indicators measures) 0 ∧
    (calculate_enterprise_risk_score analysis foci_indicators measures).risk_score ≤ 125 := by
  have hsum : spec_score_sum analysis foci_indicators measures =
      ownershipScoreOf analysis.total_foreign_ownership_percentage +
        ((min (analysis.ownership_complexity_score / 4) 25 : ℕ) : ℤ) +
        min (indicatorScoreOf foci_indicators) 50 -
        spec_mitigation_reduction measures := by
    unfold spec_score_sum spec_base_score spec_ownership_score ownershipScoreOf
      spec_complexity_contribution spec_indicator_score indicatorScoreOf
    ring
  constructor
  · rw [risk_score_eq_max, hsum]
  · rw [risk_score_eq_max]
    have h1 := ownershipScoreOf_le analysis.total_foreign_ownership_percentage
    have h2 : ((min (analysis.ownership_complexity_score / 4) 25 : ℕ) : ℤ) ≤ 25 := by
      have := Nat.min_le_right (analysis.ownership_complexity_score / 4) 25
      omega
    have h3 : min (indicatorScoreOf foci_indicators) 50 ≤ 50 :=
      min_le_right _ _
    have h4 := spec_mitigation_reduction_nonneg measures
    omega

/-- **C1** (counterexample).  With foreign ownership 30%, complexity 100, one
critical foreign-ownership indicator and no mitigations, the code returns a
risk score of 125, while the spec's clamped `finalScore` is 100: the claimed
upper clamp at 100 does not exist in the code. -/
theorem claim_C1_counterexample :
    (calculate_enterprise_risk_score (mkBareAnalysis 30 100)
        [criticalOwnershipIndicator] []).risk_score = 125 ∧
    spec_final_score (mkBareAnalysis 30 100) [criticalOwnershipIndicator] [] = 100 := by
  constructor
  · rw [risk_score_eq_max]
    norm_num [mkBareAnalysis, ownershipScoreOf, indicatorScoreOf,
      criticalOwnershipIndicator, indicator_weights, spec_mitigation_reduction]
  · norm_num [spec_final_score, spec_clamp, spec_score_sum, spec_base_score,
      spec_ownership_score, spec_complexity_contribution, spec_indicator_score,
      spec_mitigation_reduction, mkBareAnalysis, criticalOwnershipIndicator,
      indicator_weights]

/-- **C8**.  Holding the complexity score, the indicator list and the
mitigation list fixed, the risk score is monotonically non-decreasing in the
total foreign ownership percentage. -/
theorem claim_C8_risk_score_monotone (analysis : OwnershipAnalysis) (p q : ℚ)
    (foci_indicators : List FOCIIndicatorData)
    (measures : List MitigationMeasureData) (h : p ≤ q) :
    (calculate_enterprise_risk_score
        { analysis with total_foreign_ownership_percentage := p }
        foci_indicators measures).risk_score ≤
      (calculate_enterprise_risk_score
        { analysis with total_foreign_ownership_percentage := q }
        foci_indicators measures).risk_score := by
  rw [risk_score_eq_max, risk_score_eq_max]
  have := ownershipScoreOf_mono h
  apply max_le_max _ le_rfl
  simp only
  omega

/-- **C8** (witness): instantiated at 5% versus 30% foreign ownership with no
indicators and no mitigations. -/
theorem claim_C8_witness :
    (5 : ℚ) ≤ 30 ∧
    (calculate_enterprise_risk_score
        { mkBareAnalysis 0 0 with total_foreign_ownership_percentage := (5 : ℚ) }
        [] []).risk_score ≤
      (calculate_enterprise_risk_score
        { mkBareAnalysis 0 0 with total_foreign_ownership_percentage := (30 : ℚ) }
        [] []).risk_score :=
  ⟨by norm_num,
   claim_C8_risk_score_monotone (mkBareAnalysis 0 0) 5 30 [] [] (by norm_num)⟩

/-- **C10**.  An indicator whose category/severity pair is absent from the
weight table (the lookup yields `none` — in particular every export-control
and international-agreement indicator) contributes zero to the indicator
score: inserting it anywhere in the list changes neither the risk score nor
the reported indicator contribution, and the scorer is total (no error is
raised). -/
theorem claim_C10_unknown_weights_contribute_zero (analysis : OwnershipAnalysis)
    (pre post : List FOCIIndicatorData) (i : FOCIIndicatorData)
    (measures : List MitigationMeasureData)
    (h : indicator_weights i.indicator_type i.severity = none) :
    (calculate_enterprise_risk_score analysis (pre ++ i :: post) measures).risk_score =
      (calculate_enterprise_risk_score analysis (pre ++ post) measures).risk_score ∧
    (calculate_enterprise_risk_score analysis (pre ++ i :: post) measures).indicator_contribution =
      (calculate_enterprise_risk_score analysis (pre ++ post) measures).indicator_contribution := by
  have hscore : indicatorScoreOf (pre ++ i :: post) = indicatorScoreOf (pre ++ post) := by
    unfold indicatorScoreOf
    simp [h]
  constructor
  · rw [risk_score_eq_max, risk_score_eq_max, hscore]
  · show indicatorScoreOf (pre ++ i :: post) = indicatorScoreOf (pre ++ post)
    exact hscore

/-- **C10** (witness): an export-control indicator inserted ahead of a
critical ownership indicator leaves the score unchanged. -/
theorem claim_C10_witness :
    indicator_weights exportControlIndicator.indicator_type
      exportControlIndicator.severity = none ∧
    ((calculate_enterprise_risk_score (mkBareAnalysis 30 0)
        ([] ++ exportControlIndicator :: [criticalOwnershipIndicator]) []).risk_score =
      (calculate_enterprise_risk_score (mkBareAnalysis 30 0)
        ([] ++ [criticalOwnershipIndicator]) []).risk_score ∧
    (calculate_enterprise_risk_score (mkBareAnalysis 30 0)
        ([] ++ exportControlIndicator :: [criticalOwnershipIndicator]) []).indicator_contribution =
      (calculate_enterprise_risk_score (mkBareAnalysis 30 0)
        ([] ++ [criticalOwnershipIndicator]) []).indicator_contribution) :=
  ⟨rfl,
   claim_C10_unknown_weights_contribute_zero (mkBareAnalysis 30 0) []
     [criticalOwnershipIndicator] exportControlIndicator [] rfl⟩

/- ### Lemmas about the ownership indicator evaluator -/

theorem concentratedOwnershipIndicators_fields (details : List OwnershipDetail) :
    ∀ i ∈ concentratedOwnershipIndicators details,
      i.severity = FOCISeverity.MODERATE ∧ i.nispom_reference = "NISPOM 2-203" := by
  intro i hi
  obtain ⟨rel, _, hrel⟩ := List.mem_filterMap.mp hi
  split_ifs at hrel
  injection hrel with h
  subst h
  exact ⟨rfl, rfl⟩

theorem exists_mem_append_left_only {α : Type} {l₁ l₂ : List α} {p : α → Prop}
    (h : ∀ x ∈ l₂, ¬ p x) : (∃ x ∈ l₁ ++ l₂, p x) ↔ (∃ x ∈ l₁, p x) := by
  constructor
  · rintro ⟨x, hx, px⟩
    rcases List.mem_append.mp hx with h1 | h2
    · exact ⟨x, h1, px⟩
    · exact absurd px (h x h2)
  · rintro ⟨x, hx, px⟩
    exact ⟨x, List.mem_append.mpr (Or.inl hx), px⟩

theorem ownershipBandIndicators_critical_iff (pct : ℚ) :
    (∃ i ∈ ownershipBandIndicators pct, i.severity = FOCISeverity.CRITICAL) ↔
      25 < pct := by
  unfold ownershipBandIndicators
  split_ifs with h25 h10 h5
  all_goals simp_all [foreign_ownership_critical, foreign_ownership_major,
    foreign_ownership_minor]

theorem ownershipBandIndicators_major_iff (pct : ℚ) :
    (∃ i ∈ ownershipBandIndicators pct, i.severity = FOCISeverity.MAJOR) ↔
      (10 < pct ∧ ¬ 25 < pct) := by
  unfold ownershipBandIndicators
  split_ifs with h25 h10 h5
  all_goals simp_all [foreign_ownership_critical, foreign_ownership_major,
    foreign_ownership_minor]

theorem ownershipBandIndicators_moderate_iff (pct : ℚ) :
    (∃ i ∈ ownershipBandIndicators pct, i.nispom_reference = "NISPOM 2-202c") ↔
      (5 < pct ∧ ¬ 10 < pct) := by
  unfold ownershipBandIndicators
  split_ifs with h25 h10 h5
  all_goals simp_all [foreign_ownership_critical, foreign_ownership_major,
    foreign_ownership_minor]
  all_goals intro h
  all_goals linarith

theorem ownershipBandIndicators_any_iff (pct : ℚ) :
    (∃ i ∈ ownershipBandIndicators pct,
      i.nispom_reference = "NISPOM 2-202a" ∨ i.nispom_reference = "NISPOM 2-202b" ∨
        i.nispom_reference = "NISPOM 2-202c") ↔ 5 < pct := by
  unfold ownershipBandIndicators
  split_ifs with h25 h10 h5
  all_goals simp_all [foreign_ownership_critical, foreign_ownership_major,
    foreign_ownership_minor]
  all_goals linarith

/-- **C4** (amended).  The total-ownership band indicator uses strict
comparisons: the evaluator emits a critical foreign-ownership indicator iff
total foreign ownership is strictly above 25%, a major indicator iff strictly
above 10% and at most 25%, and the moderate band indicator (NISPOM 2-202c)
iff strictly above 5% and at most 10%; some band indicator exists iff the
total is strictly above 5% — the boundary values 25, 10 and 5 fall in the
**lower** band, not the higher one. -/
theorem claim_C4_ownership_bands_strict (analysis : OwnershipAnalysis) :
    ((∃ i ∈ assess_foreign_ownership_indicators analysis,
        i.severity = FOCISeverity.CRITICAL) ↔
      25 < analysis.total_foreign_ownership_percentage) ∧
    ((∃ i ∈ assess_foreign_ownership_indicators analysis,
        i.severity = FOCISeverity.MAJOR) ↔
      (10 < analysis.total_foreign_ownership_percentage ∧
        ¬ 25 < analysis.total_foreign_ownership_percentage)) ∧
    ((∃ i ∈ assess_foreign_ownership_indicators analysis,
        i.nispom_reference = "NISPOM 2-202c") ↔
      (5 < analysis.total_foreign_ownership_percentage ∧
        ¬ 10 < analysis.total_foreign_ownership_percentage)) ∧
    ((∃ i ∈ assess_foreign_ownership_indicators analysis,
        i.nispom_reference = "NISPOM 2-202a" ∨ i.nispom_reference = "NISPOM 2-202b" ∨
          i.nispom_reference = "NISPOM 2-202c") ↔
      5 < analysis.total_foreign_ownership_percentage) := by
  unfold assess_foreign_ownership_indicators
  have hconc := concentratedOwnershipIndicators_fields analysis.detailed_ownership
  refine ⟨?_, ?_, ?_, ?_⟩
  · rw [exists_mem_append_left_only]
    · exact ownershipBandIndicators_critical_iff _
    · intro x hx px
      have := (hconc x hx).1
      rw [this] at px
      exact FOCISeverity.noConfusion px
  · rw [exists_mem_append_left_only]
    · exact ownershipBandIndicators_major_iff _
    · intro x hx px
      have := (hconc x hx).1
      rw [this] at px
      exact FOCISeverity.noConfusion px
  · rw [exists_mem_append_left_only]
    · exact ownershipBandIndicators_moderate_iff _
    · intro x hx px
      have := (hconc x hx).2
      rw [this] at px
      exact absurd px (by decide)
  · rw [exists_mem_append_left_only]
    · exact ownershipBandIndicators_any_iff _
    · intro x hx px
      have := (hconc x hx).2
      rw [this] at px
      rcases px with px | px | px <;> exact absurd px (by decide)

/-- **C4** (counterexample).  At exactly 25% total foreign ownership the
evaluator emits a single band indicator of severity MAJOR, not the CRITICAL
indicator the claim requires for the boundary value. -/
theorem claim_C4_counterexample :
    (mkBareAnalysis 25 0).total_foreign_ownership_percentage = 25 ∧
    (assess_foreign_ownership_indicators (mkBareAnalysis 25 0)).map
      (fun i => i.severity) = [FOCISeverity.MAJOR] := by
  constructor
  · rfl
  · norm_num [assess_foreign_ownership_indicators, ownershipBandIndicators,
      concentratedOwnershipIndicators, mkBareAnalysis, foreign_ownership_critical,
      foreign_ownership_major, foreign_ownership_minor]

/- ### Lemmas about the control candidate record -/

/-- **C5** (amended).  For a foreign relation qualifying as a control
candidate, the recorded control percentage follows Python's
`voting_percentage or ownership_percentage`: it is the voting percentage
whenever that is present and nonzero — even when it is smaller than the
direct percentage — and the direct percentage only when the voting percentage
is absent or zero; the control type is `VOTING_CONTROL` exactly in the first
case. -/
theorem claim_C5_control_percentage_is_voting_or (r : OwnershipRelation)
    (detail : OwnershipDetail) (eff : ℚ) (st : TraversalState)
    (hforeign : r.is_foreign = true)
    (hqual : r.is_controlling = true ∨
      r.ownership_percentage ≥ voting_control_threshold ∨
      (votingTruthy r.voting_percentage = true ∧
        r.voting_percentage.getD 0 ≥ voting_control_threshold)) :
    (∀ v : ℚ, r.voting_percentage = some v → v ≠ 0 →
      (relationStateUpdate r detail eff st).ctrls =
        st.ctrls ++ [{ owner := detail, control_type := "VOTING_CONTROL",
                       control_percentage := v }]) ∧
    (votingTruthy r.voting_percentage = false →
      (relationStateUpdate r detail eff st).ctrls =
        st.ctrls ++ [{ owner := detail, control_type := "OWNERSHIP_CONTROL",
                       control_percentage := r.ownership_percentage }]) := by
  have hupd : (relationStateUpdate r detail eff st).ctrls =
      st.ctrls ++ (controlCandidateOf r detail).toList := by
    unfold relationStateUpdate
    rw [if_pos hforeign]
  have hcand : controlCandidateOf r detail =
      some { owner := detail
             control_type :=
               if votingTruthy r.voting_percentage = true then "VOTING_CONTROL"
               else "OWNERSHIP_CONTROL"
             control_percentage :=
               votingOrOwnership r.voting_percentage r.ownership_percentage } := by
    unfold controlCandidateOf
    rw [if_pos hqual]
  constructor
  · intro v hv hv0
    rw [hupd, hcand]
    simp [hv, votingTruthy, votingOrOwnership, hv0]
  · intro hfalse
    rw [hupd, hcand]
    rcases hvp : r.voting_percentage with _ | q
    · simp [votingOrOwnership, votingTruthy, hvp]
    · rw [hvp] at hfalse
      have hq0 : q = 0 := by simpa [votingTruthy] using hfalse
      simp [votingOrOwnership, votingTruthy, hvp, hq0]

/-- **C5** (witness): a foreign relation with direct percentage 50 and voting
percentage 5 qualifies through its direct percentage, yet records control
percentage 5. -/
theorem claim_C5_witness :
    votingCexRel.is_foreign = true ∧
    votingCexRel.ownership_percentage ≥ voting_control_threshold ∧
    (relationStateUpdate votingCexRel (mkOwnershipDetail votingCexRel 0 50) 50
        ⟨[], 0, []⟩).ctrls =
      ([] : List ControlCandidate) ++
        [{ owner := mkOwnershipDetail votingCexRel 0 50,
           control_type := "VOTING_CONTROL", control_percentage := 5 }] :=
  ⟨rfl,
   by norm_num [votingCexRel, mkRel, voting_control_threshold],
   (claim_C5_control_percentage_is_voting_or votingCexRel
      (mkOwnershipDetail votingCexRel 0 50) 50 ⟨[], 0, []⟩ rfl
      (Or.inr (Or.inl (by norm_num [votingCexRel, mkRel, voting_control_threshold])))).1
     5 rfl (by norm_num)⟩

/- ### The orchestrator's recency cache -/

/-- **C9**.  With `forceRefresh` false, when the entity validates and exactly
one stored assessment matches the cache query — same entity, same type,
validation passed, assessment date within the type-specific recency window
(90 days initial / 330 annual / 30 triggered / 60 change-in-ownership) — the
orchestrator returns that cached record: the outcome is `cachedResult`, which
carries no freshly computed traversal, indicators, or score. -/
theorem claim_C9_cache_hit (entities : List Entity) (g : List OwnershipRelation)
    (store : List FOCIAssessmentRecord) (today : Int)
    (entity_id assessor_id assessment_type : String) (entity : Entity)
    (a : FOCIAssessmentRecord)
    (hent : entities.find? (fun e => e.id == entity_id && e.deleted_at == none) =
      some entity)
    (hone : store.filter (fun rec =>
        rec.entity_id == entity_id && rec.assessment_type == assessment_type &&
        (today - recent_threshold_days assessment_type) ≤ rec.assessment_date &&
        rec.validation_status == ValidationStatus.PASSED) = [a]) :
    conduct_comprehensive_assessment entities g store today entity_id assessor_id
      assessment_type false = .ok (.cachedResult a) := by
  simp only [conduct_comprehensive_assessment, validate_assessment_authority,
    check_recent_assessment, hent, hone, eq_self_iff_true, if_true,
    sortByDateDesc, List.foldr, insertByDateDesc]

/-- **C9** (witness): a passed annual assessment 10 days old (day 990, today
day 1000, window 330 days) is returned as the cached result. -/
theorem claim_C9_witness :
    [witnessEntity].find? (fun e => e.id == "E1" && e.deleted_at == none) =
      some witnessEntity ∧
    [witnessRecentRecord].filter (fun rec =>
        rec.entity_id == "E1" && rec.assessment_type == "ANNUAL" &&
        ((1000 : Int) - recent_threshold_days "ANNUAL") ≤ rec.assessment_date &&
        rec.validation_status == ValidationStatus.PASSED) = [witnessRecentRecord] ∧
    conduct_comprehensive_assessment [witnessEntity] [] [witnessRecentRecord] 1000
      "E1" "U7" "ANNUAL" false = .ok (.cachedResult witnessRecentRecord) := by
  refine ⟨by decide, by decide, ?_⟩
  exact claim_C9_cache_hit [witnessEntity] [] [witnessRecentRecord] 1000 "E1" "U7"
    "ANNUAL" witnessEntity witnessRecentRecord (by decide) (by decide)

/- ### Unfolding and guard lemmas for the traversal -/

theorem traverseF_succ_eq (g : List OwnershipRelation) (today : Int) (fuel : Nat)
    (e : String) (depth : Nat) (cum : ℚ) (st : TraversalState) :
    traverseF g today (fuel + 1) e depth cum st =
      if depth > 10 then .error .depthExceeded
      else if e ∈ st.visited then .error (.circular e)
      else
        traverseRelations (fun o c st' => traverseF g today fuel o (depth + 1) c st')
          depth cum (activeRelationsFor g e today)
          { st with visited := e :: st.visited } := rfl

theorem relationUpd_visited (r : OwnershipRelation) (depth : Nat) (cum : ℚ)
    (st : TraversalState) : (relationUpd r depth cum st).visited = st.visited := by
  unfold relationUpd
  exact relationStateUpdate_visited _ _ _ _

theorem relationUpd_total (r : OwnershipRelation) (depth : Nat) (cum : ℚ)
    (st : TraversalState) :
    (relationUpd r depth cum st).total_foreign = st.total_foreign +
      (if r.is_foreign = true then relationEffective r cum else 0) := by
  unfold relationUpd relationStateUpdate
  split <;> simp

/-- Error values only propagate out of the loop: if the loop fails with `err`,
it was raised by some recursive call (only possible while `depth < 5`). -/
theorem traverseRelations_ne_error (g : List OwnershipRelation) (today : Int)
    (R : String → ℚ → TraversalState → TraversalResult) (depth : Nat) (cum : ℚ)
    (err : TraversalError)
    (hR : depth < 5 → ∀ o c st, R o c st ≠ .error err) :
    ∀ rs st, traverseRelations R depth cum rs st ≠ .error err := by
  intro rs
  induction rs with
  | nil =>
    intro st h
    exact Except.noConfusion h
  | cons r rs ih =>
    intro st h
    simp only [traverseRelations] at h
    rcases ho : r.owner_entity_id with _ | o
    · simp only [ho] at h
      rcases hrest : traverseRelations R depth cum rs (relationUpd r depth cum st) with
        e | q
      · simp only [hrest] at h
        injection h with h'
        exact ih _ (by rw [hrest, h'])
      · obtain ⟨rest, st3⟩ := q
        simp only [hrest] at h
        exact Except.noConfusion h
    · simp only [ho] at h
      by_cases hd : depth < 5
      · rw [if_pos hd] at h
        rcases hsub : R o (relationEffective r cum) (relationUpd r depth cum st) with
          e | p
        · simp only [hsub] at h
          injection h with h'
          exact hR hd o _ _ (by rw [hsub, h'])
        · obtain ⟨sub, st2⟩ := p
          simp only [hsub] at h
          rcases hrest : traverseRelations R depth cum rs st2 with e | q
          · simp only [hrest] at h
            injection h with h'
            exact ih _ (by rw [hrest, h'])
          · obtain ⟨rest, st3⟩ := q
            simp only [hrest] at h
            exact Except.noConfusion h
      · rw [if_neg hd] at h
        rcases hrest : traverseRelations R depth cum rs (relationUpd r depth cum st) with
          e | q
        · simp only [hrest] at h
          injection h with h'
          exact ih _ (by rw [hrest, h'])
        · obtain ⟨rest, st3⟩ := q
          simp only [hrest] at h
          exact Except.noConfusion h

/-- Starting at depth at most 5 (as every reachable call does, since recursion
proceeds only while `depth < 5`), the traversal can never raise the
depth-exceeded error: the `depth > 10` guard of the source is dead code. -/
theorem traverseF_ne_depthExceeded (g : List OwnershipRelation) (today : Int) :
    ∀ (fuel : Nat) (e : String) (depth : Nat) (cum : ℚ) (st : TraversalState),
      depth ≤ 5 →
      traverseF g today fuel e depth cum st ≠ .error .depthExceeded := by
  intro fuel
  induction fuel with
  | zero =>
    intro e depth cum st _ h
    rw [show traverseF g today 0 e depth cum st = .error .fuelExhausted from rfl] at h
    injection h with h'
    exact TraversalError.noConfusion h'
  | succ fuel ih =>
    intro e depth cum st hdep h
    rw [traverseF_succ_eq] at h
    rw [if_neg (by omega : ¬ depth > 10)] at h
    by_cases hv : e ∈ st.visited
    · rw [if_pos hv] at h
      injection h with h'
      exact TraversalError.noConfusion h'
    · rw [if_neg hv] at h
      exact traverseRelations_ne_error g today _ depth cum .depthExceeded
        (fun hd o c st' => ih o (depth + 1) c st' (by omega)) _ _ h

/-- With fuel at least `6 − depth` (as the top-level call with fuel 6 at depth
0 guarantees, recursion proceeding only while `depth < 5`), the traversal can
never report fuel exhaustion: the fuel embedding is faithful. -/
theorem traverseF_ne_fuelExhausted (g : List OwnershipRelation) (today : Int) :
    ∀ (fuel : Nat) (e : String) (depth : Nat) (cum : ℚ) (st : TraversalState),
      6 ≤ fuel + depth → depth ≤ 5 →
      traverseF g today fuel e depth cum st ≠ .error .fuelExhausted := by
  intro fuel
  induction fuel with
  | zero =>
    intro e depth cum st hfuel hdep
    omega
  | succ fuel ih =>
    intro e depth cum st hfuel hdep h
    rw [traverseF_succ_eq] at h
    rw [if_neg (by omega : ¬ depth > 10)] at h
    by_cases hv : e ∈ st.visited
    · rw [if_pos hv] at h
      injection h with h'
      exact TraversalError.noConfusion h'
    · rw [if_neg hv] at h
      exact traverseRelations_ne_error g today _ depth cum .fuelExhausted
        (fun hd o c st' => ih o (depth + 1) c st' (by omega) (by omega)) _ _ h

theorem analyzeOwnershipStructure_ne_depthExceeded (g : List OwnershipRelation)
    (today : Int) (rootId : String) :
    analyzeOwnershipStructure g today rootId ≠ .error .depthExceeded := by
  intro h
  unfold analyzeOwnershipStructure at h
  rcases htr : traverseF g today 6 rootId 0 100 ⟨[], 0, []⟩ with err | v
  · rw [htr] at h
    injection h with h'
    exact traverseF_ne_depthExceeded g today 6 rootId 0 100 ⟨[], 0, []⟩ (by omega)
      (by rw [htr, h'])
  · rw [htr] at h
    exact Except.noConfusion h

theorem analyzeOwnershipStructure_ne_fuelExhausted (g : List OwnershipRelation)
    (today : Int) (rootId : String) :
    analyzeOwnershipStructure g today rootId ≠ .error .fuelExhausted := by
  intro h
  unfold analyzeOwnershipStructure at h
  rcases htr : traverseF g today 6 rootId 0 100 ⟨[], 0, []⟩ with err | v
  · rw [htr] at h
    injection h with h'
    exact traverseF_ne_fuelExhausted g today 6 rootId 0 100 ⟨[], 0, []⟩ (by omega)
      (by omega) (by rw [htr, h'])
  · rw [htr] at h
    exact Except.noConfusion h

theorem analyzeOwnershipStructure_ok_elim (g : List OwnershipRelation)
    (today : Int) (rootId : String) (a : OwnershipAnalysis)
    (h : analyzeOwnershipStructure g today rootId = .ok a) :
    ∃ ds st', traverseF g today 6 rootId 0 100 ⟨[], 0, []⟩ = .ok (ds, st') := by
  unfold analyzeOwnershipStructure at h
  rcases htr : traverseF g today 6 rootId 0 100 ⟨[], 0, []⟩ with err | v
  · rw [htr] at h
    exact Except.noConfusion h
  · obtain ⟨ds, st'⟩ := v
    exact ⟨ds, st', rfl⟩

/- ### The visited-set invariant of a successful traversal -/

/-- Loop invariant of `traverseRelations` under a successful run: the visited
set only grows; the endpoint of every in-bound ownership path below a
processed relation was unvisited on entry and is visited on exit; and two
in-bound paths below processed relations with the same endpoint are the same
path below the same relation. -/
theorem traverseRelations_ok_inv (g : List OwnershipRelation) (today : Int)
    (R : String → ℚ → TraversalState → TraversalResult) (depth : Nat) (cum : ℚ)
    (hmono : depth < 5 → ∀ o c st ds st', R o c st = .ok (ds, st') →
      st.visited ⊆ st'.visited)
    (hpath : depth < 5 → ∀ o c st ds st', R o c st = .ok (ds, st') →
      ∀ p t, OwnershipPath g today o p t → p.length ≤ 5 - (depth + 1) →
        t ∉ st.visited ∧ t ∈ st'.visited)
    (hinj : depth < 5 → ∀ o c st ds st', R o c st = .ok (ds, st') →
      ∀ p₁ t₁ p₂ t₂, OwnershipPath g today o p₁ t₁ → OwnershipPath g today o p₂ t₂ →
        p₁.length ≤ 5 - (depth + 1) → p₂.length ≤ 5 - (depth + 1) → t₁ = t₂ →
        p₁ = p₂) :
    ∀ (rs : List OwnershipRelation) (st : TraversalState)
      (ds : List OwnershipDetail) (st' : TraversalState),
      traverseRelations R depth cum rs st = .ok (ds, st') →
      st.visited ⊆ st'.visited ∧
      (∀ r o, r ∈ rs → r.owner_entity_id = some o → depth < 5 →
        ∀ p t, OwnershipPath g today o p t → p.length ≤ 5 - (depth + 1) →
          t ∉ st.visited ∧ t ∈ st'.visited) ∧
      (∀ r₁ o₁ r₂ o₂ p₁ t₁ p₂ t₂, r₁ ∈ rs → r₂ ∈ rs →
        r₁.owner_entity_id = some o₁ → r₂.owner_entity_id = some o₂ → depth < 5 →
        OwnershipPath g today o₁ p₁ t₁ → OwnershipPath g today o₂ p₂ t₂ →
        p₁.length ≤ 5 - (depth + 1) → p₂.length ≤ 5 - (depth + 1) → t₁ = t₂ →
        r₁ = r₂ ∧ p₁ = p₂) := by
  intro rs
  induction rs with
  | nil =>
    intro st ds st' h
    simp only [traverseRelations] at h
    injection h with h'
    injection h' with h1 h2
    subst h2
    refine ⟨fun x hx => hx, ?_, ?_⟩
    · intro r o hr
      exact absurd hr (List.not_mem_nil r)
    · intro r₁ o₁ r₂ o₂ p₁ t₁ p₂ t₂ hr₁
      exact absurd hr₁ (List.not_mem_nil r₁)
  | cons r rs ih =>
    intro st ds st' h
    simp only [traverseRelations] at h
    rcases ho : r.owner_entity_id with _ | o
    · -- individual owner: no recursion
      simp only [ho] at h
      rcases hrest : traverseRelations R depth cum rs (relationUpd r depth cum st) with
        e | q
      · simp only [hrest] at h
        exact Except.noConfusion h
      · obtain ⟨rest, st3⟩ := q
        simp only [hrest] at h
        injection h with h'
        injection h' with h1 h2
        subst h2
        obtain ⟨ihA, ihB, ihC⟩ := ih _ _ _ hrest
        rw [relationUpd_visited] at ihA
        refine ⟨ihA, ?_, ?_⟩
        · intro r' o' hr' ho' hd p t hp hlen
          rcases List.mem_cons.mp hr' with heq | hin
          · subst heq
            rw [ho] at ho'
            exact Option.noConfusion ho'
          · have := ihB r' o' hin ho' hd p t hp hlen
            rw [relationUpd_visited] at this
            exact this
        · intro r₁ o₁ r₂ o₂ p₁ t₁ p₂ t₂ h1m h2m ho1 ho2 hd hp1 hp2 hl1 hl2 hteq
          rcases List.mem_cons.mp h1m with h1e | h1i
          · subst h1e
            rw [ho] at ho1
            exact Option.noConfusion ho1
          rcases List.mem_cons.mp h2m with h2e | h2i
          · subst h2e
            rw [ho] at ho2
            exact Option.noConfusion ho2
          exact ihC r₁ o₁ r₂ o₂ p₁ t₁ p₂ t₂ h1i h2i ho1 ho2 hd hp1 hp2 hl1 hl2 hteq
    · simp only [ho] at h
      by_cases hd : depth < 5
      · -- entity owner within the expansion depth: recursion happened
        rw [if_pos hd] at h
        rcases hsub : R o (relationEffective r cum) (relationUpd r depth cum st) with
          e | p
        · simp only [hsub] at h
          exact Except.noConfusion h
        · obtain ⟨sub, st2⟩ := p
          simp only [hsub] at h
          rcases hrest : traverseRelations R depth cum rs st2 with e | q
          · simp only [hrest] at h
            exact Except.noConfusion h
          · obtain ⟨rest, st3⟩ := q
            simp only [hrest] at h
            injection h with h'
            injection h' with h1 h2
            subst h2
            obtain ⟨ihA, ihB, ihC⟩ := ih _ _ _ hrest
            have hm1 : st.visited ⊆ st2.visited := by
              have := hmono hd o _ _ _ _ hsub
              rw [relationUpd_visited] at this
              exact this
            refine ⟨fun x hx => ihA (hm1 hx), ?_, ?_⟩
            · intro r' o' hr' ho' hd' p t hp hlen
              rcases List.mem_cons.mp hr' with heq | hin
              · subst heq
                rw [ho] at ho'
                injection ho' with ho''
                subst ho''
                have := hpath hd o _ _ _ _ hsub p t hp hlen
                rw [relationUpd_visited] at this
                exact ⟨this.1, ihA this.2⟩
              · have := ihB r' o' hin ho' hd' p t hp hlen
                exact ⟨fun hmem => this.1 (hm1 hmem), this.2⟩
            · intro r₁ o₁ r₂ o₂ p₁ t₁ p₂ t₂ h1m h2m ho1 ho2 hd' hp1 hp2 hl1 hl2 hteq
              rcases List.mem_cons.mp h1m with h1e | h1i
              · rcases List.mem_cons.mp h2m with h2e | h2i
                · subst h1e
                  subst h2e
                  rw [ho] at ho1 ho2
                  injection ho1 with ho1'
                  injection ho2 with ho2'
                  subst ho1'
                  subst ho2'
                  exact ⟨rfl, hinj hd o _ _ _ _ hsub p₁ t₁ p₂ t₂ hp1 hp2 hl1 hl2 hteq⟩
                · subst h1e
                  rw [ho] at ho1
                  injection ho1 with ho1'
                  subst ho1'
                  have ht1 : t₁ ∈ st2.visited :=
                    (hpath hd o _ _ _ _ hsub p₁ t₁ hp1 hl1).2
                  have ht2 : t₂ ∉ st2.visited :=
                    (ihB r₂ o₂ h2i ho2 hd' p₂ t₂ hp2 hl2).1
                  exact absurd (hteq ▸ ht1) ht2
              · rcases List.mem_cons.mp h2m with h2e | h2i
                · subst h2e
                  rw [ho] at ho2
                  injection ho2 with ho2'
                  subst ho2'
                  have ht2 : t₂ ∈ st2.visited :=
                    (hpath hd o _ _ _ _ hsub p₂ t₂ hp2 hl2).2
                  have ht1 : t₁ ∉ st2.visited :=
                    (ihB r₁ o₁ h1i ho1 hd' p₁ t₁ hp1 hl1).1
                  exact absurd (hteq ▸ ht2) ht1
                · exact ihC r₁ o₁ r₂ o₂ p₁ t₁ p₂ t₂ h1i h2i ho1 ho2 hd' hp1 hp2
                    hl1 hl2 hteq
      · -- entity owner beyond the expansion depth: recorded but not expanded
        rw [if_neg hd] at h
        rcases hrest : traverseRelations R depth cum rs (relationUpd r depth cum st) with
          e | q
        · simp only [hrest] at h
          exact Except.noConfusion h
        · obtain ⟨rest, st3⟩ := q
          simp only [hrest] at h
          injection h with h'
          injection h' with h1 h2
          subst h2
          obtain ⟨ihA, ihB, ihC⟩ := ih _ _ _ hrest
          rw [relationUpd_visited] at ihA
          refine ⟨ihA, ?_, ?_⟩
          · intro r' o' hr' ho' hd'
            exact absurd hd' hd
          · intro r₁ o₁ r₂ o₂ p₁ t₁ p₂ t₂ h1m h2m ho1 ho2 hd'
            exact absurd hd' hd

/-- A successful traversal call never revisits: the endpoints of in-bound
ownership paths from the current entity are pairwise distinct (distinct paths
reach distinct entities), all unvisited on entry and visited on exit. -/
theorem traverseF_ok_inv (g : List OwnershipRelation) (today : Int) :
    ∀ (fuel : Nat) (e : String) (depth : Nat) (cum : ℚ) (st : TraversalState)
      (ds : List OwnershipDetail) (st' : TraversalState),
      traverseF g today fuel e depth cum st = .ok (ds, st') →
      st.visited ⊆ st'.visited ∧
      (∀ p o, OwnershipPath g today e p o → p.length ≤ 5 - depth →
        o ∉ st.visited ∧ o ∈ st'.visited) ∧
      (∀ p₁ o₁ p₂ o₂, OwnershipPath g today e p₁ o₁ → OwnershipPath g today e p₂ o₂ →
        p₁.length ≤ 5 - depth → p₂.length ≤ 5 - depth → o₁ = o₂ → p₁ = p₂) := by
  intro fuel
  induction fuel with
  | zero =>
    intro e depth cum st ds st' h
    exact Except.noConfusion h
  | succ fuel ih =>
    intro e depth cum st ds st' h
    rw [traverseF_succ_eq] at h
    by_cases h10 : depth > 10
    · rw [if_pos h10] at h
      exact Except.noConfusion h
    rw [if_neg h10] at h
    by_cases hv : e ∈ st.visited
    · rw [if_pos hv] at h
      exact Except.noConfusion h
    rw [if_neg hv] at h
    obtain ⟨hA, hB, hC⟩ := traverseRelations_ok_inv g today _ depth cum
      (fun hd o c stx dsx stx' hh => (ih o (depth + 1) c stx dsx stx' hh).1)
      (fun hd o c stx dsx stx' hh => (ih o (depth + 1) c stx dsx stx' hh).2.1)
      (fun hd o c stx dsx stx' hh => (ih o (depth + 1) c stx dsx stx' hh).2.2)
      _ _ _ _ h
    refine ⟨fun x hx => hA (List.mem_cons_of_mem e hx), ?_, ?_⟩
    · intro p o hp hlen
      cases hp with
      | nil => exact ⟨hv, hA (List.mem_cons_self e _)⟩
      | cons _ o' _ r p' hr ho' hp' =>
        have hd : depth < 5 := by
          have := hlen
          simp only [List.length_cons] at this
          omega
        have hlen' : p'.length ≤ 5 - (depth + 1) := by
          simp only [List.length_cons] at hlen
          omega
        have := hB r o' hr ho' hd p' o hp' hlen'
        refine ⟨fun hmem => this.1 (List.mem_cons_of_mem e hmem), this.2⟩
    · intro p₁ o₁ p₂ o₂ hp1 hp2 hl1 hl2 heq
      cases hp1 with
      | nil =>
        cases hp2 with
        | nil => rfl
        | cons _ o2' _ r₂ p₂' hr2 ho2' hp2' =>
          have hd : depth < 5 := by
            simp only [List.length_cons] at hl2
            omega
          have hlen2' : p₂'.length ≤ 5 - (depth + 1) := by
            simp only [List.length_cons] at hl2
            omega
          have := hB r₂ o2' hr2 ho2' hd p₂' o₂ hp2' hlen2'
          exact absurd (heq ▸ List.mem_cons_self e st.visited) this.1
      | cons _ o1' _ r₁ p₁' hr1 ho1' hp1' =>
        cases hp2 with
        | nil =>
          have hd : depth < 5 := by
            simp only [List.length_cons] at hl1
            omega
          have hlen1' : p₁'.length ≤ 5 - (depth + 1) := by
            simp only [List.length_cons] at hl1
            omega
          have := hB r₁ o1' hr1 ho1' hd p₁' o₁ hp1' hlen1'
          exact absurd (heq ▸ List.mem_cons_self e st.visited) this.1
        | cons _ o2' _ r₂ p₂' hr2 ho2' hp2' =>
          have hd : depth < 5 := by
            simp only [List.length_cons] at hl1
            omega
          have hlen1' : p₁'.length ≤ 5 - (depth + 1) := by
            simp only [List.length_cons] at hl1
            omega
          have hlen2' : p₂'.length ≤ 5 - (depth + 1) := by
            simp only [List.length_cons] at hl2
            omega
          obtain ⟨hre, hpe⟩ := hC r₁ o1' r₂ o2' p₁' o₁ p₂' o₂ hr1 hr2 ho1' ho2' hd
            hp1' hp2' hlen1' hlen2' heq
          rw [hre, hpe]

/- ### Cycle and re-encounter failures (claims C6 and C7) -/

theorem acyclic_of_rank (g : List OwnershipRelation) (today : Int)
    (rank : String → Nat)
    (h : ∀ r o, r ∈ g → r.owner_entity_id = some o →
      rank r.owned_entity_id < rank o) :
    AcyclicOwnership g today := by
  have key : ∀ e p o, OwnershipPath g today e p o →
      rank e ≤ rank o ∧ (p ≠ [] → rank e < rank o) := by
    intro e p o hp
    induction hp with
    | nil e => exact ⟨le_refl _, fun hne => absurd rfl hne⟩
    | cons e o' tgt r p hr ho hp ih =>
      obtain ⟨hrg, howned, _⟩ := mem_activeRelationsFor.mp hr
      have hlt : rank e < rank o' := by
        have := h r o' hrg ho
        rw [howned] at this
        exact this
      exact ⟨le_of_lt (lt_of_lt_of_le hlt ih.1), fun _ => lt_of_lt_of_le hlt ih.1⟩
  intro e p hp
  by_contra hne
  exact absurd ((key e p e hp).2 hne) (lt_irrefl _)

/-- **C6** (amended).  Whenever a nonempty cycle of active ownership relations
through the root lies within the traversal's expansion window (length at most
5), the traversal always fails with the circular structural error and never
returns an analysis; cycles that are only reachable beyond the depth-5
expansion are never visited, so the traversal completes without them. -/
theorem claim_C6_cycle_within_reach_always_fails (g : List OwnershipRelation)
    (today : Int) (root : String) (p : List OwnershipRelation)
    (hp : OwnershipPath g today root p root) (hne : p ≠ [])
    (hlen : p.length ≤ 5) :
    ∃ e, analyzeOwnershipStructure g today root = .error (.circular e) := by
  rcases hres : analyzeOwnershipStructure g today root with err | a
  · cases err with
    | circular x => exact ⟨x, rfl⟩
    | depthExceeded =>
      exact absurd hres (analyzeOwnershipStructure_ne_depthExceeded g today root)
    | fuelExhausted =>
      exact absurd hres (analyzeOwnershipStructure_ne_fuelExhausted g today root)
  · obtain ⟨ds, st', htr⟩ := analyzeOwnershipStructure_ok_elim g today root a hres
    have hinv := (traverseF_ok_inv g today 6 root 0 100 ⟨[], 0, []⟩ ds st' htr).2.2
    have hcontra := hinv p root [] root hp (OwnershipPath.nil root)
      (by omega) (by simp) rfl
    exact absurd hcontra hne

/-- **C6** (witness): the spec's example cycle — `A` owns `B` and `B` owns
`A` — is caught: assessing `A` raises the circular failure. -/
theorem claim_C6_witness :
    OwnershipPath abCycleG 0 "A" [chainRel "A" "B", chainRel "B" "A"] "A" ∧
    ([chainRel "A" "B", chainRel "B" "A"] : List OwnershipRelation) ≠ [] ∧
    ([chainRel "A" "B", chainRel "B" "A"] : List OwnershipRelation).length ≤ 5 ∧
    ∃ e, analyzeOwnershipStructure abCycleG 0 "A" = .error (.circular e) := by
  have hp : OwnershipPath abCycleG 0 "A" [chainRel "A" "B", chainRel "B" "A"] "A" :=
    OwnershipPath.cons "A" "B" "A" (chainRel "A" "B") [chainRel "B" "A"]
      (mem_activeRelationsFor.mpr ⟨by simp [abCycleG], rfl, rfl⟩) rfl
      (OwnershipPath.cons "B" "A" "A" (chainRel "B" "A") []
        (mem_activeRelationsFor.mpr ⟨by simp [abCycleG], rfl, rfl⟩) rfl
        (OwnershipPath.nil "A"))
  exact ⟨hp, by simp, by simp,
    claim_C6_cycle_within_reach_always_fails abCycleG 0 "A" _ hp (by simp) (by simp)⟩

/-- **C6** (counterexample).  `deepCycleG` contains a cycle (`T6` ↔ `T7`)
reachable from the root `T0`, yet the assessment completes: the chain to the
cycle is longer than the depth-5 expansion, so the cycle is never visited and
the claim's "always fails" does not hold. -/
theorem claim_C6_counterexample :
    OwnershipPath deepCycleG 0 "T0"
      [chainRel "T0" "T1", chainRel "T1" "T2", chainRel "T2" "T3",
       chainRel "T3" "T4", chainRel "T4" "T5", chainRel "T5" "T6"] "T6" ∧
    OwnershipPath deepCycleG 0 "T6" [chainRel "T6" "T7", chainRel "T7" "T6"] "T6" ∧
    ([chainRel "T6" "T7", chainRel "T7" "T6"] : List OwnershipRelation) ≠ [] ∧
    ((analyzeOwnershipStructure deepCycleG 0 "T0").map
      (fun a => a.ownership_tiers)) = .ok 6 := by
  refine ⟨?_, ?_, by simp, ?_⟩
  · exact OwnershipPath.cons "T0" "T1" "T6" _ _
      (mem_activeRelationsFor.mpr ⟨by simp [deepCycleG], rfl, rfl⟩) rfl
      (OwnershipPath.cons "T1" "T2" "T6" _ _
        (mem_activeRelationsFor.mpr ⟨by simp [deepCycleG], rfl, rfl⟩) rfl
        (OwnershipPath.cons "T2" "T3" "T6" _ _
          (mem_activeRelationsFor.mpr ⟨by simp [deepCycleG], rfl, rfl⟩) rfl
          (OwnershipPath.cons "T3" "T4" "T6" _ _
            (mem_activeRelationsFor.mpr ⟨by simp [deepCycleG], rfl, rfl⟩) rfl
            (OwnershipPath.cons "T4" "T5" "T6" _ _
              (mem_activeRelationsFor.mpr ⟨by simp [deepCycleG], rfl, rfl⟩) rfl
              (OwnershipPath.cons "T5" "T6" "T6" _ _
                (mem_activeRelationsFor.mpr ⟨by simp [deepCycleG], rfl, rfl⟩) rfl
                (OwnershipPath.nil "T6"))))))
  · exact OwnershipPath.cons "T6" "T7" "T6" _ _
      (mem_activeRelationsFor.mpr ⟨by simp [deepCycleG], rfl, rfl⟩) rfl
      (OwnershipPath.cons "T7" "T6" "T6" _ _
        (mem_activeRelationsFor.mpr ⟨by simp [deepCycleG], rfl, rfl⟩) rfl
        (OwnershipPath.nil "T6"))
  · norm_num +decide [analyzeOwnershipStructure, traverseF_succ_eq,
      traverseRelations, activeRelationsFor, sortByPctDesc, insertByPctDesc,
      isActiveRelation, relationUpd, relationStateUpdate, relationEffective,
      controlCandidateOf, mkOwnershipDetail, votingTruthy, votingOrOwnership,
      voting_control_threshold, List.filter, maxDepthOf, deepCycleG, chainRel,
      mkRel, Except.map]

/-- **C7** (amended).  Whenever some entity is reachable from the root by two
distinct chains of active ownership relations that both lie within the
expansion window (length at most 5) — even in an acyclic diamond — the
traversal raises the circular-ownership failure rather than returning an
analysis: the visited set is shared across sibling branches and entries are
never removed.  Convergence that happens only beyond the depth-5 expansion is
never observed. -/
theorem claim_C7_double_path_within_reach_fails (g : List OwnershipRelation)
    (today : Int) (root : String) (p₁ p₂ : List OwnershipRelation) (o : String)
    (h1 : OwnershipPath g today root p₁ o) (h2 : OwnershipPath g today root p₂ o)
    (hne : p₁ ≠ p₂) (hl1 : p₁.length ≤ 5) (hl2 : p₂.length ≤ 5) :
    ∃ e, analyzeOwnershipStructure g today root = .error (.circular e) := by
  rcases hres : analyzeOwnershipStructure g today root with err | a
  · cases err with
    | circular x => exact ⟨x, rfl⟩
    | depthExceeded =>
      exact absurd hres (analyzeOwnershipStructure_ne_depthExceeded g today root)
    | fuelExhausted =>
      exact absurd hres (analyzeOwnershipStructure_ne_fuelExhausted g today root)
  · obtain ⟨ds, st', htr⟩ := analyzeOwnershipStructure_ok_elim g today root a hres
    have hinv := (traverseF_ok_inv g today 6 root 0 100 ⟨[], 0, []⟩ ds st' htr).2.2
    exact absurd (hinv p₁ o p₂ o h1 h2 (by omega) (by omega) rfl) hne

/-- **C7** (witness): the shallow diamond — `ROOT` owned by `B` and `C`, `D`
owning both — is acyclic yet fails with the circular error. -/
theorem claim_C7_witness :
    OwnershipPath diamondG 0 "ROOT" [dmRootB, dmBD] "D" ∧
    OwnershipPath diamondG 0 "ROOT" [dmRootC, dmCD] "D" ∧
    ([dmRootB, dmBD] : List OwnershipRelation) ≠ [dmRootC, dmCD] ∧
    ∃ e, analyzeOwnershipStructure diamondG 0 "ROOT" = .error (.circular e) := by
  have h1 : OwnershipPath diamondG 0 "ROOT" [dmRootB, dmBD] "D" :=
    OwnershipPath.cons "ROOT" "B" "D" dmRootB [dmBD]
      (mem_activeRelationsFor.mpr ⟨by simp [diamondG], rfl, rfl⟩) rfl
      (OwnershipPath.cons "B" "D" "D" dmBD []
        (mem_activeRelationsFor.mpr ⟨by simp [diamondG], rfl, rfl⟩) rfl
        (OwnershipPath.nil "D"))
  have h2 : OwnershipPath diamondG 0 "ROOT" [dmRootC, dmCD] "D" :=
    OwnershipPath.cons "ROOT" "C" "D" dmRootC [dmCD]
      (mem_activeRelationsFor.mpr ⟨by simp [diamondG], rfl, rfl⟩) rfl
      (OwnershipPath.cons "C" "D" "D" dmCD []
        (mem_activeRelationsFor.mpr ⟨by simp [diamondG], rfl, rfl⟩) rfl
        (OwnershipPath.nil "D"))
  have hne : ([dmRootB, dmBD] : List OwnershipRelation) ≠ [dmRootC, dmCD] := by
    intro heq
    simp [dmRootB, dmRootC, dmBD, dmCD, mkRel] at heq
  exact ⟨h1, h2, hne,
    claim_C7_double_path_within_reach_fails diamondG 0 "ROOT" _ _ "D" h1 h2 hne
      (by simp) (by simp)⟩

/-- **C7** (counterexample).  In `deepDiamondG` the entity `D` is reachable
from the root by two distinct ownership paths and the graph is acyclic, yet
the traversal completes (the paths converge beyond the depth-5 expansion):
the claim's universal "raises the circular failure" is false. -/
theorem claim_C7_counterexample :
    OwnershipPath deepDiamondG 0 "T0"
      [chainRel "T0" "T1", chainRel "T1" "T2", chainRel "T2" "T3",
       chainRel "T3" "T4", chainRel "T4" "T5", ddT5A, ddAD] "D" ∧
    OwnershipPath deepDiamondG 0 "T0"
      [chainRel "T0" "T1", chainRel "T1" "T2", chainRel "T2" "T3",
       chainRel "T3" "T4", chainRel "T4" "T5", ddT5B, ddBD] "D" ∧
    ([chainRel "T0" "T1", chainRel "T1" "T2", chainRel "T2" "T3",
      chainRel "T3" "T4", chainRel "T4" "T5", ddT5A, ddAD] : List OwnershipRelation) ≠
      [chainRel "T0" "T1", chainRel "T1" "T2", chainRel "T2" "T3",
       chainRel "T3" "T4", chainRel "T4" "T5", ddT5B, ddBD] ∧
    AcyclicOwnership deepDiamondG 0 ∧
    ((analyzeOwnershipStructure deepDiamondG 0 "T0").map
      (fun a => a.ownership_tiers)) = .ok 6 := by
  refine ⟨?_, ?_, ?_, ?_, ?_⟩
  · exact OwnershipPath.cons "T0" "T1" "D" _ _
      (mem_activeRelationsFor.mpr ⟨by simp [deepDiamondG], rfl, rfl⟩) rfl
      (OwnershipPath.cons "T1" "T2" "D" _ _
        (mem_activeRelationsFor.mpr ⟨by simp [deepDiamondG], rfl, rfl⟩) rfl
        (OwnershipPath.cons "T2" "T3" "D" _ _
          (mem_activeRelationsFor.mpr ⟨by simp [deepDiamondG], rfl, rfl⟩) rfl
          (OwnershipPath.cons "T3" "T4" "D" _ _
            (mem_activeRelationsFor.mpr ⟨by simp [deepDiamondG], rfl, rfl⟩) rfl
            (OwnershipPath.cons "T4" "T5" "D" _ _
              (mem_activeRelationsFor.mpr ⟨by simp [deepDiamondG], rfl, rfl⟩) rfl
              (OwnershipPath.cons "T5" "A" "D" ddT5A _
                (mem_activeRelationsFor.mpr ⟨by simp [deepDiamondG], rfl, rfl⟩) rfl
                (OwnershipPath.cons "A" "D" "D" ddAD []
                  (mem_activeRelationsFor.mpr ⟨by simp [deepDiamondG], rfl, rfl⟩) rfl
                  (OwnershipPath.nil "D")))))))
  · exact OwnershipPath.cons "T0" "T1" "D" _ _
      (mem_activeRelationsFor.mpr ⟨by simp [deepDiamondG], rfl, rfl⟩) rfl
      (OwnershipPath.cons "T1" "T2" "D" _ _
        (mem_activeRelationsFor.mpr ⟨by simp [deepDiamondG], rfl, rfl⟩) rfl
        (OwnershipPath.cons "T2" "T3" "D" _ _
          (mem_activeRelationsFor.mpr ⟨by simp [deepDiamondG], rfl, rfl⟩) rfl
          (OwnershipPath.cons "T3" "T4" "D" _ _
            (mem_activeRelationsFor.mpr ⟨by simp [deepDiamondG], rfl, rfl⟩) rfl
            (OwnershipPath.cons "T4" "T5" "D" _ _
              (mem_activeRelationsFor.mpr ⟨by simp [deepDiamondG], rfl, rfl⟩) rfl
              (OwnershipPath.cons "T5" "B" "D" ddT5B _
                (mem_activeRelationsFor.mpr ⟨by simp [deepDiamondG], rfl, rfl⟩) rfl
                (OwnershipPath.cons "B" "D" "D" ddBD []
                  (mem_activeRelationsFor.mpr ⟨by simp [deepDiamondG], rfl, rfl⟩) rfl
                  (OwnershipPath.nil "D")))))))
  · intro heq
    simp [ddT5A, ddT5B, ddAD, ddBD, chainRel, mkRel] at heq
  · refine acyclic_of_rank deepDiamondG 0 deepDiamondRank ?_
    intro r o hr ho
    simp only [deepDiamondG, List.mem_cons, List.not_mem_nil, or_false] at hr
    rcases hr with rfl | rfl | rfl | rfl | rfl | rfl | rfl | rfl | rfl <;>
      (injection ho with ho'; subst ho'; decide)
  · norm_num +decide [analyzeOwnershipStructure, traverseF_succ_eq,
      traverseRelations, activeRelationsFor, sortByPctDesc, insertByPctDesc,
      isActiveRelation, relationUpd, relationStateUpdate, relationEffective,
      controlCandidateOf, mkOwnershipDetail, votingTruthy, votingOrOwnership,
      voting_control_threshold, List.filter, maxDepthOf, deepDiamondG, ddT5A,
      ddT5B, ddAD, ddBD, chainRel, mkRel, Except.map]

/- ### Depth behaviour on an 11-tier chain (claim C3) -/

/-- **C3** (amended).  The depth-exceeded structural failure is unreachable
from any assessment: recursion proceeds only while `depth < 5`, so the
`depth > 10` guard never fires.  An 11-tier chain therefore does **not**
abort; its traversal completes with the expansion truncated at depth 5 (the
fully-foreign chain yields the capped total of 100). -/
theorem claim_C3_depth_cap_unreachable_chain_completes :
    (∀ (g : List OwnershipRelation) (today : Int) (root : String),
      analyzeOwnershipStructure g today root ≠ .error .depthExceeded) ∧
    ((analyzeOwnershipStructure chain11G 0 "T0").map
      (fun a => a.total_foreign_ownership_percentage) = .ok 100) := by
  refine ⟨fun g today root => analyzeOwnershipStructure_ne_depthExceeded g today root, ?_⟩
  norm_num +decide [analyzeOwnershipStructure, traverseF_succ_eq,
    traverseRelations, activeRelationsFor, sortByPctDesc, insertByPctDesc,
    isActiveRelation, relationUpd, relationStateUpdate, relationEffective,
    controlCandidateOf, mkOwnershipDetail, votingTruthy, votingOrOwnership,
    voting_control_threshold, List.filter, maxDepthOf, chain11G, chainRel,
    mkRel, Except.map]

/-- **C3** (counterexample).  The 11-tier chain does not fail: the assessment
completes, recording only the 6 relations at depths 0–5 (6 ownership tiers)
instead of raising the claimed depth-exceeded structural failure. -/
theorem claim_C3_counterexample :
    ((analyzeOwnershipStructure chain11G 0 "T0").map
      (fun a => (a.total_ownership_relations, a.ownership_tiers))) = .ok (6, 6) := by
  norm_num +decide [analyzeOwnershipStructure, traverseF_succ_eq,
    traverseRelations, activeRelationsFor, sortByPctDesc, insertByPctDesc,
    isActiveRelation, relationUpd, relationStateUpdate, relationEffective,
    controlCandidateOf, mkOwnershipDetail, votingTruthy, votingOrOwnership,
    voting_control_threshold, List.filter, maxDepthOf, chain11G, chainRel,
    mkRel, Except.map]

/-- **C5** (counterexample).  Assessing a single foreign relation with direct
percentage 50 and voting percentage 5 records a control candidate with
control percentage 5 — not the larger of the two (50). -/
theorem claim_C5_counterexample :
    ((analyzeOwnershipStructure votingCexG 0 "ROOT").map
      (fun a => a.foreign_control_indicators.map
        (fun c => (c.control_type, c.control_percentage)))) =
      .ok [("VOTING_CONTROL", (5 : ℚ))] ∧
    max (5 : ℚ) 50 = 50 ∧ (5 : ℚ) ≠ 50 := by
  refine ⟨?_, by norm_num, by norm_num⟩
  norm_num +decide [analyzeOwnershipStructure, traverseF_succ_eq,
    traverseRelations, activeRelationsFor, sortByPctDesc, insertByPctDesc,
    isActiveRelation, relationUpd, relationStateUpdate, relationEffective,
    controlCandidateOf, mkOwnershipDetail, votingTruthy, votingOrOwnership,
    voting_control_threshold, List.filter, maxDepthOf, votingCexG, votingCexRel,
    mkRel, Except.map]

/-- **C2** (counterexample).  The acyclic diamond — `ROOT` owned by `B` and
`C`, `D` owning both — makes the traversal fail with the circular error at
`D` instead of completing with the foreign-ownership sum: the claim's "for
every acyclic ownership graph, the traversal completes" is false. -/
theorem claim_C2_counterexample :
    AcyclicOwnership diamondG 0 ∧
    analyzeOwnershipStructure diamondG 0 "ROOT" = .error (.circular "D") := by
  constructor
  · refine acyclic_of_rank diamondG 0 diamondRank ?_
    intro r o hr ho
    simp only [diamondG, List.mem_cons, List.not_mem_nil, or_false] at hr
    rcases hr with rfl | rfl | rfl | rfl <;>
      (injection ho with ho'; subst ho'; decide)
  · norm_num +decide [analyzeOwnershipStructure, traverseF_succ_eq,
      traverseRelations, activeRelationsFor, sortByPctDesc, insertByPctDesc,
      isActiveRelation, relationUpd, relationStateUpdate, relationEffective,
      controlCandidateOf, mkOwnershipDetail, votingTruthy, votingOrOwnership,
      voting_control_threshold, List.filter, maxDepthOf, diamondG, dmRootB,
      dmRootC, dmBD, dmCD, mkRel]

/- ### Successful traversal of tree-shaped graphs (claim C2) -/

theorem specTotalForeign_succ (g : List OwnershipRelation) (today : Int)
    (fuel : Nat) (e : String) (cum : ℚ) (depth : Nat) :
    specTotalForeign g today (fuel + 1) e cum depth =
      ((specRelationsOf g today e).map
        (relationContribution (fun o c => specTotalForeign g today fuel o c (depth + 1))
          depth cum)).sum := rfl

/-- Loop counterpart of the tree-success lemma: when the endpoints below the
processed relations are unvisited and pairwise separated, the loop succeeds
and accumulates exactly the per-relation contributions. -/
theorem traverseRelations_ok_of_separated (g : List OwnershipRelation) (today : Int)
    (R : String → ℚ → TraversalState → TraversalResult) (depth : Nat) (cum : ℚ)
    (S : String → ℚ → ℚ)
    (hR : depth < 5 → ∀ o c st,
      (∀ p t, OwnershipPath g today o p t → p.length ≤ 5 - (depth + 1) →
        t ∉ st.visited) →
      (∀ p₁ t₁ p₂ t₂, OwnershipPath g today o p₁ t₁ → OwnershipPath g today o p₂ t₂ →
        p₁.length ≤ 5 - (depth + 1) → p₂.length ≤ 5 - (depth + 1) → t₁ = t₂ →
        p₁ = p₂) →
      ∃ ds st', R o c st = .ok (ds, st') ∧
        st'.total_foreign = st.total_foreign + S o c ∧
        st.visited ⊆ st'.visited ∧
        (∀ x, x ∈ st'.visited → x ∈ st.visited ∨
          ∃ p, OwnershipPath g today o p x ∧ p.length ≤ 5 - (depth + 1))) :
    ∀ (rs : List OwnershipRelation) (st : TraversalState),
      rs.Nodup →
      (∀ r o, r ∈ rs → r.owner_entity_id = some o → depth < 5 →
        ∀ p t, OwnershipPath g today o p t → p.length ≤ 5 - (depth + 1) →
          t ∉ st.visited) →
      (∀ r₁ o₁ r₂ o₂ p₁ t₁ p₂ t₂, r₁ ∈ rs → r₂ ∈ rs →
        r₁.owner_entity_id = some o₁ → r₂.owner_entity_id = some o₂ → depth < 5 →
        OwnershipPath g today o₁ p₁ t₁ → OwnershipPath g today o₂ p₂ t₂ →
        p₁.length ≤ 5 - (depth + 1) → p₂.length ≤ 5 - (depth + 1) → t₁ = t₂ →
        r₁ = r₂ ∧ p₁ = p₂) →
      ∃ ds st', traverseRelations R depth cum rs st = .ok (ds, st') ∧
        st'.total_foreign = st.total_foreign +
          (rs.map (relationContribution S depth cum)).sum ∧
        st.visited ⊆ st'.visited ∧
        (∀ x, x ∈ st'.visited → x ∈ st.visited ∨
          ∃ r o p, r ∈ rs ∧ r.owner_entity_id = some o ∧ depth < 5 ∧
            OwnershipPath g today o p x ∧ p.length ≤ 5 - (depth + 1)) := by
  intro rs
  induction rs with
  | nil =>
    intro st _ _ _
    exact ⟨[], st, rfl, by simp, fun x hx => hx, fun x hx => Or.inl hx⟩
  | cons r rs ih =>
    intro st hnd hK1 hK2
    rcases ho : r.owner_entity_id with _ | o
    · -- individual owner: no recursion, contribution is the foreign share only
      obtain ⟨rest, st3, hrest, htot, hsubs, hupper⟩ := ih (relationUpd r depth cum st)
        hnd.of_cons
        (fun r' o' hr' ho' hd p t hp hl => by
          rw [relationUpd_visited]
          exact hK1 r' o' (List.mem_cons_of_mem r hr') ho' hd p t hp hl)
        (fun r₁ o₁ r₂ o₂ p₁ t₁ p₂ t₂ h1 h2 ho1 ho2 hd hp1 hp2 hl1 hl2 ht =>
          hK2 r₁ o₁ r₂ o₂ p₁ t₁ p₂ t₂ (List.mem_cons_of_mem r h1)
            (List.mem_cons_of_mem r h2) ho1 ho2 hd hp1 hp2 hl1 hl2 ht)
      have hcontrib : relationContribution S depth cum r =
          (if r.is_foreign = true then relationEffective r cum else 0) := by
        simp [relationContribution, relationEffective, ho]
      refine ⟨mkOwnershipDetail r depth (relationEffective r cum) :: ([] ++ rest),
        st3, ?_, ?_, ?_, ?_⟩
      · simp only [traverseRelations, ho, hrest]
      · rw [htot, relationUpd_total, List.map_cons, List.sum_cons, hcontrib]
        ring
      · intro x hx
        apply hsubs
        rw [relationUpd_visited]
        exact hx
      · intro x hx
        rcases hupper x hx with hmem | ⟨r', o', p, hr', ho', hd, hp, hl⟩
        · rw [relationUpd_visited] at hmem
          exact Or.inl hmem
        · exact Or.inr ⟨r', o', p, List.mem_cons_of_mem r hr', ho', hd, hp, hl⟩
    · by_cases hd : depth < 5
      · -- entity owner within the expansion depth: the recursion succeeds
        have hchild := hR hd o (relationEffective r cum) (relationUpd r depth cum st)
          (fun p t hp hl => by
            rw [relationUpd_visited]
            exact hK1 r o (List.mem_cons_self r rs) ho hd p t hp hl)
          (fun p₁ t₁ p₂ t₂ hp1 hp2 hl1 hl2 ht =>
            (hK2 r o r o p₁ t₁ p₂ t₂ (List.mem_cons_self r rs)
              (List.mem_cons_self r rs) ho ho hd hp1 hp2 hl1 hl2 ht).2)
        obtain ⟨sub, st2, hsubrun, htot2, hsub2, hupper2⟩ := hchild
        obtain ⟨rest, st3, hrest, htot3, hsub3, hupper3⟩ := ih st2 hnd.of_cons
          (fun r' o' hr' ho' hd' p t hp hl ht2 => by
            rcases hupper2 t ht2 with hmem | ⟨p', hp', hl'⟩
            · rw [relationUpd_visited] at hmem
              exact hK1 r' o' (List.mem_cons_of_mem r hr') ho' hd' p t hp hl hmem
            · have := (hK2 r o r' o' p' t p t (List.mem_cons_self r rs)
                (List.mem_cons_of_mem r hr') ho ho' hd hp' hp hl' hl rfl).1
              rw [this] at hnd
              exact absurd hr' hnd.not_mem)
          (fun r₁ o₁ r₂ o₂ p₁ t₁ p₂ t₂ h1 h2 ho1 ho2 hd' hp1 hp2 hl1 hl2 ht =>
            hK2 r₁ o₁ r₂ o₂ p₁ t₁ p₂ t₂ (List.mem_cons_of_mem r h1)
              (List.mem_cons_of_mem r h2) ho1 ho2 hd' hp1 hp2 hl1 hl2 ht)
        have hcontrib : relationContribution S depth cum r =
            (if r.is_foreign = true then relationEffective r cum else 0) +
              S o (relationEffective r cum) := by
          simp only [relationContribution, relationEffective, ho, if_pos hd]
        refine ⟨mkOwnershipDetail r depth (relationEffective r cum) :: (sub ++ rest),
          st3, ?_, ?_, ?_, ?_⟩
        · simp only [traverseRelations, ho, if_pos hd, hsubrun, hrest]
        · rw [htot3, htot2, relationUpd_total, List.map_cons, List.sum_cons, hcontrib]
          ring
        · intro x hx
          apply hsub3
          apply hsub2
          rw [relationUpd_visited]
          exact hx
        · intro x hx
          rcases hupper3 x hx with hx2 | ⟨r', o', p, hr', ho', hd', hp, hl⟩
          · rcases hupper2 x hx2 with hmem | ⟨p, hp, hl⟩
            · rw [relationUpd_visited] at hmem
              exact Or.inl hmem
            · exact Or.inr ⟨r, o, p, List.mem_cons_self r rs, ho, hd, hp, hl⟩
          · exact Or.inr ⟨r', o', p, List.mem_cons_of_mem r hr', ho', hd', hp, hl⟩
      · -- entity owner beyond the expansion depth: recorded, not expanded
        obtain ⟨rest, st3, hrest, htot, hsubs, hupper⟩ := ih (relationUpd r depth cum st)
          hnd.of_cons
          (fun r' o' hr' ho' hd' p t hp hl => by
            rw [relationUpd_visited]
            exact hK1 r' o' (List.mem_cons_of_mem r hr') ho' hd' p t hp hl)
          (fun r₁ o₁ r₂ o₂ p₁ t₁ p₂ t₂ h1 h2 ho1 ho2 hd' hp1 hp2 hl1 hl2 ht =>
            hK2 r₁ o₁ r₂ o₂ p₁ t₁ p₂ t₂ (List.mem_cons_of_mem r h1)
              (List.mem_cons_of_mem r h2) ho1 ho2 hd' hp1 hp2 hl1 hl2 ht)
        have hcontrib : relationContribution S depth cum r =
            (if r.is_foreign = true then relationEffective r cum else 0) := by
          simp only [relationContribution, relationEffective, ho, if_neg hd]
          ring
        refine ⟨mkOwnershipDetail r depth (relationEffective r cum) :: ([] ++ rest),
          st3, ?_, ?_, ?_, ?_⟩
        · simp only [traverseRelations, ho, if_neg hd, hrest]
        · rw [htot, relationUpd_total, List.map_cons, List.sum_cons, hcontrib]
          ring
        · intro x hx
          apply hsubs
          rw [relationUpd_visited]
          exact hx
        · intro x hx
          rcases hupper x hx with hmem | ⟨r', o', p, hr', ho', hd', hp, hl⟩
          · rw [relationUpd_visited] at hmem
            exact Or.inl hmem
          · exact Or.inr ⟨r', o', p, List.mem_cons_of_mem r hr', ho', hd', hp, hl⟩

/-- Tree success: starting anywhere with enough fuel, if every in-bound path
endpoint is unvisited and distinct in-bound paths have distinct endpoints,
the traversal succeeds and accumulates exactly the spec's foreign-ownership
sum. -/
theorem traverseF_ok_of_tree (g : List OwnershipRelation) (today : Int)
    (hnd : g.Nodup) :
    ∀ (fuel : Nat) (e : String) (depth : Nat) (cum : ℚ) (st : TraversalState),
      6 ≤ fuel + depth → depth ≤ 5 →
      (∀ p t, OwnershipPath g today e p t → p.length ≤ 5 - depth →
        t ∉ st.visited) →
      (∀ p₁ t₁ p₂ t₂, OwnershipPath g today e p₁ t₁ → OwnershipPath g today e p₂ t₂ →
        p₁.length ≤ 5 - depth → p₂.length ≤ 5 - depth → t₁ = t₂ → p₁ = p₂) →
      ∃ ds st', traverseF g today fuel e depth cum st = .ok (ds, st') ∧
        st'.total_foreign = st.total_foreign + specTotalForeign g today fuel e cum depth ∧
        st.visited ⊆ st'.visited ∧
        (∀ x, x ∈ st'.visited → x ∈ st.visited ∨
          ∃ p, OwnershipPath g today e p x ∧ p.length ≤ 5 - depth) := by
  intro fuel
  induction fuel with
  | zero =>
    intro e depth cum st hfuel hdep
    omega
  | succ fuel ih =>
    intro e depth cum st hfuel hdep hK1 hK2
    have hnotv : e ∉ st.visited :=
      hK1 [] e (OwnershipPath.nil e) (by simp)
    obtain ⟨ds, st', hrun, htot, hsubs, hupper⟩ :=
      traverseRelations_ok_of_separated g today
        (fun o c st' => traverseF g today fuel o (depth + 1) c st') depth cum
        (fun o c => specTotalForeign g today fuel o c (depth + 1))
        (fun hd o c stx => ih o (depth + 1) c stx (by omega) (by omega))
        (activeRelationsFor g e today) { st with visited := e :: st.visited }
        (activeRelationsFor_nodup e today hnd)
        (fun r o hr ho hd p t hp hl => by
          intro hmem
          rcases List.mem_cons.mp hmem with hte | hts
          · -- the endpoint equals the current entity: it closes a cycle,
            -- contradicting path-endpoint injectivity
            have hfull : OwnershipPath g today e (r :: p) t :=
              OwnershipPath.cons e o t r p hr ho hp
            have := hK2 (r :: p) t [] e hfull (OwnershipPath.nil e)
              (by simp only [List.length_cons]; omega) (by simp) (by rw [hte])
            exact List.noConfusion this
          · exact hK1 (r :: p) t (OwnershipPath.cons e o t r p hr ho hp)
              (by simp only [List.length_cons]; omega) hts)
        (fun r₁ o₁ r₂ o₂ p₁ t₁ p₂ t₂ h1 h2 ho1 ho2 hd hp1 hp2 hl1 hl2 ht => by
          have hfull := hK2 (r₁ :: p₁) t₁ (r₂ :: p₂) t₂
            (OwnershipPath.cons e o₁ t₁ r₁ p₁ h1 ho1 hp1)
            (OwnershipPath.cons e o₂ t₂ r₂ p₂ h2 ho2 hp2)
            (by simp only [List.length_cons]; omega)
            (by simp only [List.length_cons]; omega) ht
          injection hfull with hre hpe
          exact ⟨hre, hpe⟩)
    refine ⟨ds, st', ?_, ?_, ?_, ?_⟩
    · rw [traverseF_succ_eq, if_neg (by omega : ¬ depth > 10), if_neg hnotv]
      exact hrun
    · rw [htot, specTotalForeign_succ]
      show st.total_foreign + _ = _
      rw [activeRelationsFor_map_sum]
    · intro x hx
      exact hsubs (List.mem_cons_of_mem e hx)
    · intro x hx
      rcases hupper x hx with hmem | ⟨r, o, p, hr, ho, hd, hp, hl⟩
      · rcases List.mem_cons.mp hmem with rfl | hmem'
        · exact Or.inr ⟨[], OwnershipPath.nil x, by simp⟩
        · exact Or.inl hmem'
      · exact Or.inr ⟨r :: p, OwnershipPath.cons e o x r p hr ho hp,
          by simp only [List.length_cons]; omega⟩

/-- **C2** (amended).  For every duplicate-free ownership graph in which
distinct chains of active relations from the root within the depth-5
expansion window always reach distinct entities (in particular the reachable
part is acyclic and no entity is reached twice within the window), the
traversal completes, and the returned total foreign ownership equals the
spec's sum — over every active foreign relation reached within the expansion
— of `directPercentage/100 × cumulativePercentage` at that relation's tier,
capped at 100. -/
theorem claim_C2_tree_traversal_totals (g : List OwnershipRelation) (today : Int)
    (root : String) (hnd : g.Nodup)
    (hinj : ∀ p₁ t₁ p₂ t₂, OwnershipPath g today root p₁ t₁ →
      OwnershipPath g today root p₂ t₂ →
      p₁.length ≤ 5 → p₂.length ≤ 5 → t₁ = t₂ → p₁ = p₂) :
    ∃ a, analyzeOwnershipStructure g today root = .ok a ∧
      a.total_foreign_ownership_percentage =
        min (specTotalForeign g today 6 root 100 0) 100 := by
  obtain ⟨ds, st', hrun, htot, _, _⟩ :=
    traverseF_ok_of_tree g today hnd 6 root 0 100 ⟨[], 0, []⟩ (by omega) (by omega)
      (fun p t _ _ => List.not_mem_nil t)
      (fun p₁ t₁ p₂ t₂ h1 h2 hl1 hl2 ht => hinj p₁ t₁ p₂ t₂ h1 h2 hl1 hl2 ht)
  have hana : analyzeOwnershipStructure g today root = .ok
      { entity_id := root
        total_ownership_relations := ds.length
        ownership_tiers := maxDepthOf ds + 1
        total_foreign_ownership_percentage := min st'.total_foreign 100
        foreign_control_indicators := st'.ctrls
        ownership_complexity_score := calculate_ownership_complexity ds
        detailed_ownership := ds } := by
    unfold analyzeOwnershipStructure
    rw [hrun]
  refine ⟨_, hana, ?_⟩
  show min st'.total_foreign 100 = min (specTotalForeign g today 6 root 100 0) 100
  rw [htot]
  norm_num

/-- **C2** (witness): the empty graph is duplicate-free and trivially
path-separated; the traversal completes with total foreign ownership
`min(0, 100) = 0`. -/
theorem claim_C2_witness :
    ([] : List OwnershipRelation).Nodup ∧
    (∃ a, analyzeOwnershipStructure [] 0 "ROOT" = .ok a ∧
      a.total_foreign_ownership_percentage =
        min (specTotalForeign [] 0 6 "ROOT" 100 0) 100) := by
  refine ⟨List.nodup_nil, ?_⟩
  refine claim_C2_tree_traversal_totals [] 0 "ROOT" List.nodup_nil ?_
  intro p₁ t₁ p₂ t₂ h1 h2 _ _ _
  have hnil : ∀ p t, OwnershipPath ([] : List OwnershipRelation) 0 "ROOT" p t →
      p = [] := by
    intro p t hp
    cases hp with
    | nil => rfl
    | cons _ o _ r q hr ho hq =>
      rw [mem_activeRelationsFor] at hr
      exact absurd hr.1 (List.not_mem_nil r)
  rw [hnil p₁ t₁ h1, hnil p₂ t₂ h2]
